import Mathlib

/-!
# Command-line resolution of the surface-water-extent tool (`src/get_args.c`)

A shallow embedding of `get_args` and of the C library routines it calls.

Modelling decisions, all visible in the definitions below:

* A `float` or `double` value is a NaN, an infinity or the rational it denotes (`CFloat`).
  The conversions round as IEC 60559 does, to nearest with ties to even: `atof` to `double`,
  the assignments to the `float` outputs and the initialisers of the `float` statics from
  `double` to `float`.  The two zeros are one value.  The additions and subtractions of the
  validation are taken exactly: their operands are `float` values and small constants, and
  around the bounds that the comparisons test the operations of the code are exact as well.
* `MINSIGMA`, `SUCCESS` and `ERROR` come from `const.h`, which is not part of the sources at
  hand.  The tolerance is a parameter of every definition that uses it; the two return codes
  are the constructors of `Status`.
* `getopt_long`, `atoi` and `atof` belong to the C library.  They are modelled after the GNU
  implementation: `getopt_long` with an empty short-option string, in its default permuting
  mode (the environment variable `POSIXLY_CORRECT` unset); `atof` for every form `strtod`
  reads (decimal, hexadecimal, `inf`, `nan`), in the C locale.
* The four `tmp_*_flag` locals and `option_index` are declared without an initial value, so
  their contents on entry are an input of the model (`Locals`).
* The locations behind the eleven output pointers are the record `Outputs`; `get_args`
  receives their contents on entry and returns their contents on exit.
* The diagnostic stream is recorded as the text handed to `ERROR_MESSAGE` (if any) and
  whether `usage ()` ran.  With `opterr = 0` the library prints nothing of its own.
-/

namespace Dswe

/-! ## Return codes -/

/-- Return codes of `const.h`. -/
inductive Status where
  | SUCCESS
  | ERROR
deriving DecidableEq, Repr

/-! ## C library conversions and floating values -/

/-- Code of a character, as the `int` that `getopt_long` returns. -/
def chr (c : Char) : Int := c.toNat

/-- The C locale `isspace`: space, and the control characters 9 to 13. -/
def isspace (c : Char) : Bool :=
  c.toNat = 32 || (9 ≤ c.toNat && c.toNat ≤ 13)

/-- Value of a run of decimal digits, most significant first. -/
def digitsValue (ds : List Char) : Nat :=
  ds.foldl (fun n d => 10 * n + (d.toNat - 48)) 0

/-- Splits an optional sign off: `true` when the text starts with a minus sign. -/
def splitSign : List Char → Bool × List Char
  | '-' :: cs => (true, cs)
  | '+' :: cs => (false, cs)
  | cs => (false, cs)

/-- Largest `long` of an LP64 platform. -/
def LONG_MAX : Int := 2 ^ 63 - 1

/-- Smallest `long` of an LP64 platform. -/
def LONG_MIN : Int := -(2 ^ 63)

/-- The call `strtol (s, NULL, 10)`: leading white space, an optional sign, then the longest
run of decimal digits; no digits give 0; a value outside `long` is clamped. -/
def strtol (s : String) : Int :=
  let body := splitSign (s.toList.dropWhile isspace)
  let n : Int := digitsValue (body.2.takeWhile Char.isDigit)
  let v : Int := if body.1 then -n else n
  max LONG_MIN (min LONG_MAX v)

/-- Conversion of a `long` to a 32-bit `int`: the low 32 bits, read as two's complement. -/
def toInt32 (v : Int) : Int := (v + 2 ^ 31) % 2 ^ 32 - 2 ^ 31

/-- The call `atoi (s)`, which glibc computes as `(int) strtol (s, NULL, 10)`. -/
def atoi (s : String) : Int := toInt32 (strtol s)

/-- A value of a C floating type under IEC 60559: not-a-number, an infinity with its sign, or
a finite value given by the rational it denotes (the two zeros are not told apart). -/
inductive CFloat where
  | nan
  | inf (neg : Bool)
  | fin (q : ℚ)
deriving DecidableEq, Repr

/-- The comparison `x < c` with a finite constant: false for a NaN. -/
def CFloat.lt (x : CFloat) (c : ℚ) : Bool :=
  match x with
  | .nan => false
  | .inf neg => neg
  | .fin q => decide (q < c)

/-- The comparison `x > c` with a finite constant: false for a NaN. -/
def CFloat.gt (x : CFloat) (c : ℚ) : Bool :=
  match x with
  | .nan => false
  | .inf neg => !neg
  | .fin q => decide (c < q)

/-- The sum `x + c` with a finite constant, taken exactly on a finite `x`. -/
def CFloat.add (x : CFloat) (c : ℚ) : CFloat :=
  match x with
  | .fin q => .fin (q + c)
  | other => other

/-- The difference `x - c` with a finite constant, taken exactly on a finite `x`. -/
def CFloat.sub (x : CFloat) (c : ℚ) : CFloat :=
  match x with
  | .fin q => .fin (q - c)
  | other => other

/-- Nearest integer to a rational, a tie going to the even neighbour. -/
def roundHalfEven (t : ℚ) : ℤ :=
  if t - ⌊t⌋ < 1 / 2 then ⌊t⌋
  else if 1 / 2 < t - ⌊t⌋ then ⌊t⌋ + 1
  else if ⌊t⌋ % 2 = 0 then ⌊t⌋ else ⌊t⌋ + 1

/-- Rounding of a rational to the binary format with `p` significant bits, `emin` the exponent
of the last place of the smallest numbers and `big` the largest finite value: to nearest, ties
to even, beyond the range to infinity. -/
def roundBinary (p : ℕ) (emin : ℤ) (big : ℚ) (q : ℚ) : CFloat :=
  if q = 0 then .fin 0
  else
    let e := max (Int.log 2 |q| + 1 - p) emin
    let v : ℚ := roundHalfEven (|q| / 2 ^ e) * 2 ^ e
    if big < v then .inf (decide (q < 0)) else .fin (if q < 0 then -v else v)

/-- Rounding to `double` (binary64). -/
def float64 (q : ℚ) : CFloat := roundBinary 53 (-1074) ((2 ^ 53 - 1) * 2 ^ 971) q

/-- Rounding to `float` (binary32). -/
def float32 (q : ℚ) : CFloat := roundBinary 24 (-149) ((2 ^ 24 - 1) * 2 ^ 104) q

/-- Conversion of a `double` to `float`, as in the assignment `*wigt = atof (optarg)`. -/
def narrow (x : CFloat) : CFloat :=
  match x with
  | .fin q => float32 q
  | other => other

/-- Exponent part of a floating constant: after the exponent letter (in either case), an
optional sign and at least one decimal digit; anything else is no exponent at all. -/
def exponentValue (letter : Char) : List Char → Int
  | c :: cs =>
    if c.toLower = letter then
      let body := splitSign cs
      let ds := body.2.takeWhile Char.isDigit
      if ds = [] then 0
      else if body.1 then -(digitsValue ds : Int) else (digitsValue ds : Int)
    else 0
  | [] => 0

/-- Whether a character is a hexadecimal digit. -/
def isxdigit (c : Char) : Bool :=
  c.isDigit || (97 ≤ c.toLower.toNat && c.toLower.toNat ≤ 102)

/-- Value of a run of hexadecimal digits, most significant first. -/
def hexDigitsValue (ds : List Char) : Nat :=
  ds.foldl (fun n d => 16 * n + (if d.isDigit then d.toNat - 48 else d.toLower.toNat - 87)) 0

/-- What `strtod` recognises at the start of a text: a NaN, an infinity, or a number written
in decimal (`mant / 10 ^ scale * 10 ^ exp`) or in hexadecimal (`mant / 16 ^ scale * 2 ^ exp`),
each with its sign. -/
inductive Numeral where
  | nan
  | inf (neg : Bool)
  | dec (neg : Bool) (mant : Nat) (scale : Nat) (exp : Int)
  | hex (neg : Bool) (mant : Nat) (scale : Nat) (exp : Int)
deriving DecidableEq, Repr

/-- Digits with an optional point, read with the digit test `isd`: the digits before the point,
the digits after it, and the text that follows. -/
def splitDigits (isd : Char → Bool) (cs : List Char) : List Char × List Char × List Char :=
  let ip := cs.takeWhile isd
  match cs.dropWhile isd with
  | '.' :: r => (ip, r.takeWhile isd, r.dropWhile isd)
  | r => (ip, [], r)

/-- The decimal form: digits with an optional point and an optional exponent after `e`;
`none` when there is no digit. -/
def scanDecimal (neg : Bool) (cs : List Char) : Option Numeral :=
  let d := splitDigits Char.isDigit cs
  if d.1.isEmpty && d.2.1.isEmpty then none
  else some (.dec neg (digitsValue (d.1 ++ d.2.1)) d.2.1.length (exponentValue 'e' d.2.2))

/-- The hexadecimal form: `0x`, hexadecimal digits with an optional point and an optional
binary exponent after `p`; `none` when the text does not start so or holds no digit. -/
def scanHex (neg : Bool) : List Char → Option Numeral
  | '0' :: x :: cs =>
    if x.toLower = 'x' then
      let d := splitDigits isxdigit cs
      if d.1.isEmpty && d.2.1.isEmpty then none
      else some (.hex neg (hexDigitsValue (d.1 ++ d.2.1)) d.2.1.length (exponentValue 'p' d.2.2))
    else none
  | _ => none

/-- The subject sequence that `strtod` recognises: after white space and an optional sign,
`inf` or `nan` in any letter case, a hexadecimal number, or a decimal number; `none` when the
text starts with none of them and no conversion is performed. -/
def scanNumber (s : String) : Option Numeral :=
  let body := splitSign (s.toList.dropWhile isspace)
  let head := (body.2.take 3).map Char.toLower
  if head = ['i', 'n', 'f'] then some (.inf body.1)
  else if head = ['n', 'a', 'n'] then some .nan
  else
    match scanHex body.1 body.2 with
    | some n => some n
    | none => scanDecimal body.1 body.2

/-- The rational a numeral denotes, when it is a number. -/
def Numeral.exact : Numeral → Option ℚ
  | .nan => none
  | .inf _ => none
  | .dec neg mant scale exp =>
    some ((if neg then -1 else 1) * ((mant : ℚ) / 10 ^ scale * 10 ^ exp))
  | .hex neg mant scale exp =>
    some ((if neg then -1 else 1) * ((mant : ℚ) / 16 ^ scale * 2 ^ exp))

/-- The value of a numeric text, when the text starts with a number. -/
def textValue (s : String) : Option ℚ :=
  (scanNumber s).bind Numeral.exact

/-- The `double` that `strtod` returns for what it recognised: the number rounded to
`double`, an infinity, or a NaN. -/
def Numeral.toDouble (n : Numeral) : CFloat :=
  match n.exact with
  | some q => float64 q
  | none =>
    match n with
    | .inf neg => .inf neg
    | _ => .nan

/-- The call `atof (s)`, that is `strtod (s, NULL)`: zero when no conversion is performed. -/
def atof (s : String) : CFloat :=
  match scanNumber s with
  | some n => n.toDouble
  | none => .fin 0

/-! ## The option table and `getopt_long` -/

/-- The `int` locals of `get_args` that a `struct option` can point at. -/
inductive FlagVar where
  | tmp_ledaps_mask_flag
  | tmp_zeven_thorne_flag
  | tmp_toa_flag
  | tmp_verbose_flag
deriving DecidableEq, Repr

/-- The locals of `get_args` that are read before the function itself assigns them: the four
staging flags and `option_index`.  Their values on entry are whatever the stack holds. -/
structure Locals where
  option_index : Nat
  tmp_ledaps_mask_flag : Int
  tmp_zeven_thorne_flag : Int
  tmp_toa_flag : Int
  tmp_verbose_flag : Int
deriving DecidableEq, Repr

/-- The store `*flag = val` through a flag pointer of the option table. -/
def Locals.store (l : Locals) (f : FlagVar) (v : Int) : Locals :=
  match f with
  | .tmp_ledaps_mask_flag => { l with tmp_ledaps_mask_flag := v }
  | .tmp_zeven_thorne_flag => { l with tmp_zeven_thorne_flag := v }
  | .tmp_toa_flag => { l with tmp_toa_flag := v }
  | .tmp_verbose_flag => { l with tmp_verbose_flag := v }

/-- One `struct option`: `flag` is `none` for a null pointer. -/
structure LongOption where
  name : String
  has_arg : Nat
  flag : Option FlagVar
  val : Int
deriving DecidableEq, Repr

/-- The `has_arg` value `no_argument`. -/
def no_argument : Nat := 0

/-- The `has_arg` value `required_argument`. -/
def required_argument : Nat := 1

/-- The table `long_options` of `get_args`, without its terminating null entry; `true` is 1. -/
def long_options : List LongOption :=
  [ ⟨"use-ledaps-mask", no_argument, some .tmp_ledaps_mask_flag, 1⟩,
    ⟨"use-zeven-thorne", no_argument, some .tmp_zeven_thorne_flag, 1⟩,
    ⟨"use-toa", no_argument, some .tmp_toa_flag, 1⟩,
    ⟨"xml", required_argument, none, chr 'x'⟩,
    ⟨"wigt", required_argument, none, chr 'w'⟩,
    ⟨"awgt", required_argument, none, chr 'a'⟩,
    ⟨"pswt", required_argument, none, chr 'p'⟩,
    ⟨"pswnt", required_argument, none, chr 'n'⟩,
    ⟨"pswst", required_argument, none, chr 'r'⟩,
    ⟨"percent-slope", required_argument, none, chr 's'⟩,
    ⟨"verbose", no_argument, some .tmp_verbose_flag, 1⟩,
    ⟨"help", no_argument, none, chr 'h'⟩ ]

/-- Outcome of looking a name up in the option table. -/
inductive Lookup where
  | found (index : Nat) (p : LongOption)
  | ambiguous
  | missing
deriving DecidableEq, Repr

/-- Table entries whose name starts with `nm`, with their indexes, in table order. -/
def candidates (nm : List Char) : List (Nat × LongOption) :=
  long_options.enum.filter (fun ip => nm.isPrefixOf ip.2.name.toList)

/-- Name lookup of glibc's `process_long_option`: an exact match wins; otherwise the first
entry that `nm` abbreviates, unless a later such entry differs from it in `has_arg`, `flag` or
`val`, which makes the abbreviation ambiguous. -/
def lookup (nm : List Char) : Lookup :=
  match (candidates nm).find? (fun ip => ip.2.name.toList = nm) with
  | some ip => .found ip.1 ip.2
  | none =>
    match candidates nm with
    | [] => .missing
    | ip :: more =>
      if more.any (fun jq =>
          ip.2.has_arg ≠ jq.2.has_arg ∨ ip.2.flag ≠ jq.2.flag ∨ ip.2.val ≠ jq.2.val)
      then .ambiguous
      else .found ip.1 ip.2

/-- The vector `argv` as `getopt_long` has arranged it so far, cut at the three indexes glibc
keeps, together with the rest of its static data.
`seen` is `argv[0 .. first_nonopt)`, `nonopts` is `argv[first_nonopt .. last_nonopt)`, `recent`
is `argv[last_nonopt .. optind)`, `rest` is `argv[optind .. argc)`, and `nextchar` holds the
unread characters of a cluster of short options. -/
structure GetoptData where
  seen : List String
  nonopts : List String
  recent : List String
  rest : List String
  nextchar : List Char
deriving DecidableEq, Repr

/-- State of a process that has not called `getopt_long` yet: `optind` is 1. -/
def fresh (argv : List String) : GetoptData :=
  { seen := argv.take 1, nonopts := [], recent := [], rest := argv.drop 1, nextchar := [] }

/-- The vector `argv` in its current order. -/
def GetoptData.argv (g : GetoptData) : List String :=
  g.seen ++ g.nonopts ++ g.recent ++ g.rest

/-- The count `argc`. -/
def GetoptData.argc (g : GetoptData) : Nat := g.argv.length

/-- The element `argv[optind - 1]` (the empty string when `optind` is 0). -/
def GetoptData.beforeOptind (g : GetoptData) : String :=
  (g.seen ++ g.nonopts ++ g.recent).getLast?.getD ""

/-- What one call of `getopt_long` leaves behind: its return value, `optarg`, the static data
and the caller's locals (it stores through `longind` and through a flag pointer). -/
structure GetoptReturn where
  c : Int
  optarg : Option String
  g : GetoptData
  l : Locals
deriving DecidableEq, Repr

/-- The macro `NONOPTION_P` of glibc: the element does not start with a dash, or is a lone
dash. -/
def NONOPTION_P (t : String) : Bool :=
  match t.toList with
  | '-' :: _ :: _ => false
  | _ => true

/-- One short-option character `c` of the cluster at `argv[optind]`, `cs` being the characters
after it.  `optind` moves on when `c` is the last character.  The short-option string of
`get_args` is empty, so no character is an option and the result is always `?`. -/
def short_option (g : GetoptData) (l : Locals) (_c : Char) (cs : List Char) : GetoptReturn :=
  let g1 : GetoptData :=
    if cs = [] then { g with recent := g.recent ++ g.rest.take 1, rest := g.rest.drop 1 }
    else g
  { c := chr '?', optarg := none, g := { g1 with nextchar := cs }, l := l }

/-- The routine `process_long_option` of glibc for the element `tok` at `argv[optind]` whose
text after the two dashes is `body`; `g` already has `tok` removed from `rest`. -/
def process_long_option (g : GetoptData) (l : Locals) (tok : String) (body : List Char) :
    GetoptReturn :=
  let nm := body.takeWhile (fun c => c ≠ '=')
  let tl := body.dropWhile (fun c => c ≠ '=')
  let g1 : GetoptData := { g with recent := g.recent ++ [tok] }
  match lookup nm with
  | .ambiguous => { c := chr '?', optarg := none, g := g1, l := l }
  | .missing => { c := chr '?', optarg := none, g := g1, l := l }
  | .found i p =>
    let done (optarg : Option String) (g2 : GetoptData) : GetoptReturn :=
      let l1 := { l with option_index := i }
      match p.flag with
      | some f => { c := 0, optarg := optarg, g := g2, l := l1.store f p.val }
      | none => { c := p.val, optarg := optarg, g := g2, l := l1 }
    match tl with
    | _ :: value =>
      if p.has_arg ≠ 0 then done (some (String.mk value)) g1
      else { c := chr '?', optarg := none, g := g1, l := l }
    | [] =>
      if p.has_arg = 1 then
        match g1.rest with
        | v :: rest => done (some v) { g1 with recent := g1.recent ++ [v], rest := rest }
        | [] => { c := chr '?', optarg := none, g := g1, l := l }
      else done none g1

/-- One call `getopt_long (argc, argv, "", long_options, &option_index)`. -/
def getopt_long (g : GetoptData) (l : Locals) : GetoptReturn :=
  match g.nextchar with
  | c :: cs => short_option g l c cs
  | [] =>
    -- options handled since the last call move in front of the skipped non-options
    let seen := g.seen ++ g.recent
    -- skip further non-options
    let nonopts := g.nonopts ++ g.rest.takeWhile NONOPTION_P
    match g.rest.dropWhile NONOPTION_P with
    | [] =>
      { c := -1, optarg := none, l := l,
        g := { seen := seen, nonopts := [], recent := [], rest := nonopts, nextchar := [] } }
    | tok :: rest =>
      if tok = "--" then
        { c := -1, optarg := none, l := l,
          g := { seen := seen ++ [tok], nonopts := [], recent := [], rest := nonopts ++ rest,
                 nextchar := [] } }
      else
        match tok.toList with
        | '-' :: '-' :: body =>
          process_long_option
            { seen := seen, nonopts := nonopts, recent := [], rest := rest, nextchar := [] }
            l tok body
        | _ :: c :: cs =>
          short_option
            { seen := seen, nonopts := nonopts, recent := [], rest := tok :: rest,
              nextchar := [] }
            l c cs
        | _ =>
          -- not reached: an element that is not a non-option has a dash and one more character
          { c := -1, optarg := none, l := l,
            g := { seen := seen, nonopts := nonopts, recent := [], rest := tok :: rest,
                   nextchar := [] } }

/-! ## `get_args` -/

/-- Contents of the locations behind the output pointers of `get_args`; `xml_infile` is `none`
for a null pointer. -/
structure Outputs where
  xml_infile : Option String
  use_ledaps_mask_flag : Bool
  use_zeven_thorne_flag : Bool
  use_toa_flag : Bool
  wigt : CFloat
  awgt : CFloat
  pswt : CFloat
  percent_slope : CFloat
  pswnt : Int
  pswst : Int
  verbose_flag : Bool
deriving DecidableEq, Repr

/-- What a call of `get_args` leaves behind: the return code, the text handed to
`ERROR_MESSAGE` (if any), whether `usage ()` ran, the output locations, and the static data of
`getopt_long` with `argv`. -/
structure Result where
  ret : Status
  msg : Option String
  usage : Bool
  out : Outputs
  getopt : GetoptData
deriving DecidableEq, Repr

/-- The static `default_wigt`: the `double` constant 0.015 converted to `float`. -/
def default_wigt : CFloat := narrow (float64 0.015)

/-- The static `default_awgt`. -/
def default_awgt : CFloat := narrow (float64 0.0)

/-- The static `default_pswt`. -/
def default_pswt : CFloat := narrow (float64 (-0.05))

/-- The static `default_percent_slope`. -/
def default_percent_slope : CFloat := narrow (float64 3.0)

/-- The static `default_pswnt`. -/
def default_pswnt : Int := 1500

/-- The static `default_pswst`. -/
def default_pswst : Int := 1000

/-- The assignments of lines 152 to 157: the six defaults. -/
def assign_defaults (o : Outputs) : Outputs :=
  { o with wigt := default_wigt, awgt := default_awgt, pswt := default_pswt,
           percent_slope := default_percent_slope, pswnt := default_pswnt,
           pswst := default_pswst }

/-- The longest run of leading characters whose UTF-8 encoding fits in `n` bytes. -/
def takeBytes : Nat → List Char → List Char
  | _, [] => []
  | n, c :: cs => if c.utf8Size ≤ n then c :: takeBytes (n - c.utf8Size) cs else []

/-- The text that `snprintf (msg, sizeof (msg), "Unknown option %s\n\n", ...)` leaves in the
256-byte buffer `msg`: the first 255 bytes (a character that those bytes would cut in two is
left out). -/
def unknown_option_msg (tok : String) : String :=
  String.mk (takeBytes 255 ("Unknown option " ++ tok ++ "\n\n").toList)

/-- How the option loop of `get_args` ends: by a `return` inside the `switch`, or by the
`break` on -1 with the state it then has. -/
inductive LoopEnd where
  | returned (r : Result)
  | finished (g : GetoptData) (l : Locals) (o : Outputs)
deriving DecidableEq, Repr

/-- The `switch (c)` of the option loop for a return value `c` other than -1: the updated
outputs when the case ends in `break`, the result when it ends in `return`.  Case 0 falls
through to the help case when the table entry has a null flag pointer (an index outside the
table, which `getopt_long` never stores, is read the same way). -/
def switch_c (r : GetoptReturn) (o : Outputs) : Outputs ⊕ Result :=
  let help : Result := { ret := .ERROR, msg := none, usage := true, out := o, getopt := r.g }
  if r.c = 0 then
    match long_options.get? r.l.option_index with
    | some p => if p.flag ≠ none then .inl o else .inr help
    | none => .inr help
  else if r.c = chr 'h' then .inr help
  else if r.c = chr 'x' then .inl { o with xml_infile := r.optarg }
  else if r.c = chr 'w' then .inl { o with wigt := narrow (atof (r.optarg.getD "")) }
  else if r.c = chr 'a' then .inl { o with awgt := narrow (atof (r.optarg.getD "")) }
  else if r.c = chr 'p' then .inl { o with pswt := narrow (atof (r.optarg.getD "")) }
  else if r.c = chr 'n' then .inl { o with pswnt := atoi (r.optarg.getD "") }
  else if r.c = chr 'r' then .inl { o with pswst := atoi (r.optarg.getD "") }
  else if r.c = chr 's' then .inl { o with percent_slope := narrow (atof (r.optarg.getD "")) }
  else
    .inr { ret := .ERROR, msg := some (unknown_option_msg r.g.beforeOptind), usage := true,
           out := o, getopt := r.g }

/-- The loop `while (1)` of lines 161 to 210, with a bound on the number of iterations;
`none` when the bound is used up. -/
def get_args_loop : Nat → GetoptData → Locals → Outputs → Option LoopEnd
  | 0, _, _, _ => none
  | fuel + 1, g, l, o =>
    let r := getopt_long g l
    if r.c = -1 then some (.finished r.g r.l o)
    else
      match switch_c r o with
      | .inr res => some (.returned res)
      | .inl o1 => get_args_loop fuel r.g r.l o1

/-- Lines 212 to 231: the four staging flags are copied to the boolean outputs. -/
def grab_flags (l : Locals) (o : Outputs) : Outputs :=
  { o with use_ledaps_mask_flag := decide (l.tmp_ledaps_mask_flag ≠ 0),
           use_zeven_thorne_flag := decide (l.tmp_zeven_thorne_flag ≠ 0),
           use_toa_flag := decide (l.tmp_toa_flag ≠ 0),
           verbose_flag := decide (l.tmp_verbose_flag ≠ 0) }

/-- An error exit of the validation: a message, the usage text, `ERROR`. -/
def fail (text : String) (g : GetoptData) (o : Outputs) : Result :=
  { ret := .ERROR, msg := some text, usage := true, out := o, getopt := g }

/-- Lines 233 to 294: the validation of the parameters, in the order of the source. -/
def validate (MINSIGMA : ℚ) (g : GetoptData) (o : Outputs) : Result :=
  if o.xml_infile = none then
    fail "XML input file is a required command line argument\n\n" g o
  else if o.wigt.lt 0 || (o.wigt.sub 2).gt MINSIGMA then
    fail "WIGT is out of range\n\n" g o
  else if (o.awgt.add 2).lt MINSIGMA || (o.awgt.sub 2).gt MINSIGMA then
    fail "AWGT is out of range\n\n" g o
  else if (o.pswt.add 2).lt MINSIGMA || (o.pswt.sub 2).gt MINSIGMA then
    fail "PSWT is out of range\n\n" g o
  else if o.pswnt < 0 then
    fail "PSWB4T is out of range\n\n" g o
  else if o.pswst < 0 then
    fail "PSWB4T is out of range\n\n" g o
  else if o.percent_slope.lt 0 || (o.percent_slope.sub 100).gt MINSIGMA then
    fail "Percent Slope is out of range\n\n" g o
  else
    { ret := .SUCCESS, msg := none, usage := false, out := o, getopt := g }

/-- The function `get_args`.  `g` holds `argv` and the static data of `getopt_long` on entry,
`l` the contents of the uninitialised locals, `o` the contents of the output locations.  The
loop bound is one more than the number of unread elements of `argv`; `get_args_returns` shows
that it is never used up. -/
def get_args (MINSIGMA : ℚ) (g : GetoptData) (l : Locals) (o : Outputs) : Option Result :=
  if g.argc = 1 then
    some { ret := .ERROR, msg := some "Missing required command line arguments\n\n",
           usage := true, out := o, getopt := g }
  else
    match get_args_loop (g.rest.length + 1) g l (assign_defaults o) with
    | none => none
    | some (.returned r) => some r
    | some (.finished g1 l1 o1) => some (validate MINSIGMA g1 (grab_flags l1 o1))

/-! ## Sample entry states and the vocabulary of the statements -/

/-- A stack whose uninitialised slots happen to hold zero. -/
def stack0 : Locals :=
  { option_index := 0, tmp_ledaps_mask_flag := 0, tmp_zeven_thorne_flag := 0,
    tmp_toa_flag := 0, tmp_verbose_flag := 0 }

/-- Output locations as a caller may set them up: a null `xml_infile`, everything else zero. -/
def entry0 : Outputs :=
  { xml_infile := none, use_ledaps_mask_flag := false, use_zeven_thorne_flag := false,
    use_toa_flag := false, wigt := .fin 0, awgt := .fin 0, pswt := .fin 0,
    percent_slope := .fin 0, pswnt := 0, pswst := 0, verbose_flag := false }

/-- The tolerance used in the closed examples. -/
def sampleSigma : ℚ := 1 / 100000

/-- What `get_args` returns on `--xml scene.xml --bogus` from `stack0` and `entry0`. -/
def sampleUnknown : Result :=
  { ret := .ERROR, msg := some "Unknown option --bogus\n\n", usage := true,
    out := { assign_defaults entry0 with xml_infile := some "scene.xml" },
    getopt := ⟨["dswe", "--xml", "scene.xml"], [], ["--bogus"], [], []⟩ }

/-- The outputs other than the four boolean ones: the input path and the six numeric
values. -/
def Outputs.parsed (o : Outputs) :
    Option String × CFloat × CFloat × CFloat × CFloat × Int × Int :=
  (o.xml_infile, o.wigt, o.awgt, o.pswt, o.percent_slope, o.pswnt, o.pswst)

/-- A result without the four boolean outputs: return code, diagnostic text, usage, the state
of `getopt_long`, the input path and the six numeric values. -/
def Result.core (r : Result) :
    Status × Option String × Bool × GetoptData ×
      (Option String × CFloat × CFloat × CFloat × CFloat × Int × Int) :=
  (r.ret, r.msg, r.usage, r.getopt, r.out.parsed)

/-- The end of the option loop without the locals and the four boolean outputs. -/
def LoopEnd.core : LoopEnd →
    (GetoptData × (Option String × CFloat × CFloat × CFloat × CFloat × Int × Int)) ⊕
      (Status × Option String × Bool × GetoptData ×
        (Option String × CFloat × CFloat × CFloat × CFloat × Int × Int))
  | .finished g _ o => .inl (g, o.parsed)
  | .returned r => .inr r.core

/-- The options that successive calls of `getopt_long` report from the state `g`, each with
its return value and `optarg`, up to the first return of -1 (at most `fuel` calls). -/
def options_met : Nat → GetoptData → Locals → List (Int × Option String)
  | 0, _, _ => []
  | fuel + 1, g, l =>
    let r := getopt_long g l
    if r.c = -1 then [] else (r.c, r.optarg) :: options_met fuel r.g r.l

/-- The reported options whose `switch` case ended in `break` and so stored their value: the
options met up to the first one whose case returns (the help option, an unknown option or a
missing value), or up to the end of the scan.  Whether a case returns does not depend on the
outputs, so `switch_c` is asked with `entry0`. -/
def options_stored : Nat → GetoptData → Locals → List (Int × Option String)
  | 0, _, _ => []
  | fuel + 1, g, l =>
    let r := getopt_long g l
    if r.c = -1 then []
    else
      match switch_c r entry0 with
      | .inr _ => []
      | .inl _ => (r.c, r.optarg) :: options_stored fuel r.g r.l

/-- The output locations as the option loop leaves them, whichever way it ends. -/
def LoopEnd.out : LoopEnd → Outputs
  | .finished _ _ o => o
  | .returned r => r.out

/-- The test `lo <= x && x <= hi` on a floating value: false for a NaN and for an infinity. -/
def CFloat.within (x : CFloat) (lo hi : ℚ) : Bool :=
  match x with
  | .fin q => decide (lo ≤ q ∧ q ≤ hi)
  | _ => false

/-- The `optarg` of the last reported option whose return value is `c`, if there is one. -/
def lastOptarg (c : Int) (tr : List (Int × Option String)) : Option (Option String) :=
  ((tr.filter (fun x => x.1 = c)).getLast?).map (fun x => x.2)

/-- The seven checks of the validation in the order the specification lists them (input path,
WIGT, AWGT, PSWT, PSWNT, PSWST, percent slope), each with the text reported when it is
violated. -/
def checks (MINSIGMA : ℚ) : List ((Outputs → Bool) × String) :=
  [ (fun o => decide (o.xml_infile = none),
      "XML input file is a required command line argument\n\n"),
    (fun o => o.wigt.lt 0 || (o.wigt.sub 2).gt MINSIGMA, "WIGT is out of range\n\n"),
    (fun o => (o.awgt.add 2).lt MINSIGMA || (o.awgt.sub 2).gt MINSIGMA,
      "AWGT is out of range\n\n"),
    (fun o => (o.pswt.add 2).lt MINSIGMA || (o.pswt.sub 2).gt MINSIGMA,
      "PSWT is out of range\n\n"),
    (fun o => decide (o.pswnt < 0), "PSWB4T is out of range\n\n"),
    (fun o => decide (o.pswst < 0), "PSWB4T is out of range\n\n"),
    (fun o => o.percent_slope.lt 0 || (o.percent_slope.sub 100).gt MINSIGMA,
      "Percent Slope is out of range\n\n") ]

/-- The text of the earliest violated check in the order of `checks`, if any check is
violated. -/
def first_violation (MINSIGMA : ℚ) (o : Outputs) : Option String :=
  ((checks MINSIGMA).find? (fun c => c.1 o)).map (fun c => c.2)

/-- An element of `argv` that, read as an option, takes the next element as its value: two
dashes, then a name with no `=` after it that the table resolves (in full or abbreviated) to
an entry with a required argument. -/
def awaitsValue (t : String) : Bool :=
  match t.toList with
  | '-' :: '-' :: body =>
    (body.dropWhile (fun c => c ≠ '=')).isEmpty &&
      (match lookup (body.takeWhile (fun c => c ≠ '=')) with
       | .found _ p => p.has_arg == 1
       | _ => false)
  | _ => false

/-- An element of `argv` that, read as an option, is the `xml` option: two dashes, then a name
(up to an `=`, if any) that the table resolves, in full or abbreviated, to the entry `xml`. -/
def isXmlOption (t : String) : Bool :=
  match t.toList with
  | '-' :: '-' :: body =>
    (match lookup (body.takeWhile (fun c => c ≠ '=')) with
     | .found _ p => p.val == chr 'x'
     | _ => false)
  | _ => false

/-- The unread elements `rest` hold a `--help` that the scan will meet as an option: no
element before it is the terminator `--`, and the element right before it (if any) is not an
option waiting for its value. -/
def HelpAhead (rest : List String) : Prop :=
  ∃ pre post, rest = pre ++ "--help" :: post ∧ "--" ∉ pre ∧
    ∀ t, pre.getLast? = some t → awaitsValue t = false

/-! ## Rounding -/

theorem roundHalfEven_le (t : ℚ) (k : ℤ) (h : t ≤ k) : roundHalfEven t ≤ k := by
  have hf : ⌊t⌋ ≤ k := Int.floor_le_iff.mpr (lt_of_le_of_lt h (by exact_mod_cast Int.lt_succ k))
  unfold roundHalfEven
  rcases lt_or_eq_of_le hf with hlt | heq
  · split_ifs <;> omega
  · have ht : t = k := le_antisymm h (by rw [← heq]; exact Int.floor_le t)
    have h0 : t - ⌊t⌋ < 1 / 2 := by rw [heq, ht]; norm_num
    rw [if_pos h0, heq]

theorem roundHalfEven_ge (t : ℚ) (k : ℤ) (h : (k : ℚ) ≤ t) : k ≤ roundHalfEven t := by
  have hf : k ≤ ⌊t⌋ := Int.le_floor.mpr h
  unfold roundHalfEven
  split_ifs <;> omega

theorem roundHalfEven_intCast (k : ℤ) : roundHalfEven (k : ℚ) = k :=
  le_antisymm (roundHalfEven_le _ _ le_rfl) (roundHalfEven_ge _ _ le_rfl)

theorem roundBinary_zero (p : ℕ) (emin : ℤ) (big : ℚ) : roundBinary p emin big 0 = .fin 0 := by
  simp [roundBinary]

theorem roundBinary_bounds (p : ℕ) (emin : ℤ) (big q : ℚ) (j : ℤ) (hp : 1 ≤ p)
    (hj : emin ≤ j) (hbig : (2 : ℚ) ^ j ≤ big) (hq : |q| ≤ 2 ^ j) :
    ∃ v, roundBinary p emin big q = .fin v ∧ |v| ≤ 2 ^ j ∧ (0 ≤ q → 0 ≤ v) ∧
      (q ≤ 0 → v ≤ 0) := by
  by_cases hq0 : q = 0
  · subst hq0
    exact ⟨0, roundBinary_zero p emin big, by simpa using (zpow_pos (by norm_num) j).le,
      fun _ => le_rfl, fun _ => le_rfl⟩
  · have ha : 0 < |q| := abs_pos.mpr hq0
    have hE : Int.log 2 |q| ≤ j := by
      have h1 := Int.log_mono_right (b := 2) ha (by simpa using hq : |q| ≤ ((2 : ℕ) : ℚ) ^ j)
      rwa [Int.log_zpow (by norm_num)] at h1
    have he : max (Int.log 2 |q| + 1 - (p : ℤ)) emin ≤ j := by
      have : (1 : ℤ) ≤ p := by exact_mod_cast hp
      exact max_le (by omega) hj
    obtain ⟨n, hn⟩ : ∃ n : ℕ, j - max (Int.log 2 |q| + 1 - (p : ℤ)) emin = n :=
      ⟨(j - max (Int.log 2 |q| + 1 - (p : ℤ)) emin).toNat, (Int.toNat_of_nonneg (by omega)).symm⟩
    have h2e : (0 : ℚ) < 2 ^ max (Int.log 2 |q| + 1 - (p : ℤ)) emin := zpow_pos (by norm_num) _
    have hsplit : (2 : ℚ) ^ j = ((2 ^ n : ℕ) : ℤ) * 2 ^ max (Int.log 2 |q| + 1 - (p : ℤ)) emin := by
      have : j = (n : ℤ) + max (Int.log 2 |q| + 1 - (p : ℤ)) emin := by omega
      rw [this, zpow_add₀ (by norm_num), zpow_natCast]
      push_cast
      rfl
    have ht : |q| / 2 ^ max (Int.log 2 |q| + 1 - (p : ℤ)) emin ≤ (((2 ^ n : ℕ) : ℤ) : ℚ) := by
      rw [div_le_iff₀ h2e, ← hsplit]
      exact hq
    have hr1 := roundHalfEven_le _ _ ht
    have hr0 : (0 : ℤ) ≤ roundHalfEven (|q| / 2 ^ max (Int.log 2 |q| + 1 - (p : ℤ)) emin) :=
      roundHalfEven_ge _ 0 (by simpa using (div_pos ha h2e).le)
    have hv0 : (0 : ℚ) ≤
        roundHalfEven (|q| / 2 ^ max (Int.log 2 |q| + 1 - (p : ℤ)) emin) *
          2 ^ max (Int.log 2 |q| + 1 - (p : ℤ)) emin :=
      mul_nonneg (by exact_mod_cast hr0) h2e.le
    have hv1 : (roundHalfEven (|q| / 2 ^ max (Int.log 2 |q| + 1 - (p : ℤ)) emin) : ℚ) *
          2 ^ max (Int.log 2 |q| + 1 - (p : ℤ)) emin ≤ 2 ^ j := by
      rw [hsplit]
      exact mul_le_mul_of_nonneg_right (by exact_mod_cast hr1) h2e.le
    unfold roundBinary
    rw [if_neg hq0]
    simp only []
    rw [if_neg (not_lt.mpr (le_trans hv1 hbig))]
    by_cases hneg : q < 0
    · rw [if_pos hneg]
      refine ⟨_, rfl, ?_, fun h => absurd hneg (not_lt.mpr h), fun _ => by linarith⟩
      rw [abs_neg, abs_of_nonneg hv0]
      exact hv1
    · rw [if_neg hneg]
      refine ⟨_, rfl, ?_, fun _ => hv0, fun h => absurd (le_antisymm h (not_lt.mp hneg)) hq0⟩
      rw [abs_of_nonneg hv0]
      exact hv1

theorem roundBinary_exact (p : ℕ) (emin : ℤ) (big : ℚ) (k s : ℤ) (hk : k ≠ 0)
    (hkp : |k| < 2 ^ p) (hs : emin ≤ s) (hbig : (|k| : ℚ) * 2 ^ s ≤ big) :
    roundBinary p emin big (k * 2 ^ s) = .fin (k * 2 ^ s) := by
  have h2s : (0 : ℚ) < 2 ^ s := zpow_pos (by norm_num) _
  have hq0 : (k : ℚ) * 2 ^ s ≠ 0 := mul_ne_zero (by exact_mod_cast hk) h2s.ne'
  have habs : |(k : ℚ) * 2 ^ s| = (|k| : ℚ) * 2 ^ s := by
    rw [abs_mul, abs_of_pos h2s]
  have ha : 0 < |(k : ℚ) * 2 ^ s| := abs_pos.mpr hq0
  have hlog : Int.log 2 |(k : ℚ) * 2 ^ s| < p + s := by
    rw [← Int.lt_zpow_iff_log_lt (by norm_num) ha, habs, zpow_add₀ (by norm_num), zpow_natCast]
    have : ((|k| : ℤ) : ℚ) < ((2 ^ p : ℤ) : ℚ) := by exact_mod_cast hkp
    push_cast at this ⊢
    exact mul_lt_mul_of_pos_right this h2s
  have he : max (Int.log 2 |(k : ℚ) * 2 ^ s| + 1 - (p : ℤ)) emin ≤ s := max_le (by omega) hs
  unfold roundBinary
  rw [if_neg hq0]
  simp only []
  generalize max (Int.log 2 |(k : ℚ) * 2 ^ s| + 1 - (p : ℤ)) emin = e at he ⊢
  obtain ⟨n, hn⟩ : ∃ n : ℕ, s - e = n := ⟨(s - e).toNat, (Int.toNat_of_nonneg (by omega)).symm⟩
  have h2e : (0 : ℚ) < 2 ^ e := zpow_pos (by norm_num) _
  have hsplit : (2 : ℚ) ^ s = 2 ^ n * 2 ^ e := by
    have : s = (n : ℤ) + e := by omega
    rw [this, zpow_add₀ (by norm_num), zpow_natCast]
  have ht : |(k : ℚ) * 2 ^ s| / 2 ^ e = ((|k| * 2 ^ n : ℤ) : ℚ) := by
    rw [div_eq_iff h2e.ne', habs, hsplit]
    push_cast
    ring
  have hv : (roundHalfEven (|(k : ℚ) * 2 ^ s| / 2 ^ e) : ℚ) * 2 ^ e = |(k : ℚ) * 2 ^ s| := by
    rw [ht, roundHalfEven_intCast, habs, hsplit]
    push_cast
    ring
  rw [hv, if_neg (not_lt.mpr (by rw [habs]; exact hbig))]
  by_cases hneg : (k : ℚ) * 2 ^ s < 0
  · rw [if_pos hneg, abs_of_neg hneg, neg_neg]
  · rw [if_neg hneg, abs_of_nonneg (not_lt.mp hneg)]

theorem roundHalfEven_eq (t : ℚ) (n : ℤ) (h1 : (n : ℚ) - 1 / 2 < t) (h2 : t < n + 1 / 2) :
    roundHalfEven t = n := by
  have hfl : n - 1 ≤ ⌊t⌋ := Int.le_floor.mpr (by push_cast; linarith)
  have hfu : ⌊t⌋ ≤ n := Int.floor_le_iff.mpr (by linarith)
  have hft := Int.floor_le t
  have hlt := Int.lt_floor_add_one t
  unfold roundHalfEven
  rcases eq_or_lt_of_le hfu with heq | hlt2
  · rw [if_pos (by rw [heq]; linarith), heq]
  · have heq : ⌊t⌋ = n - 1 := by omega
    have hc : ((⌊t⌋ : ℤ) : ℚ) = n - 1 := by rw [heq]; push_cast; ring
    rw [if_neg (by rw [hc]; linarith), if_pos (by rw [hc]; linarith), heq]
    ring

theorem log_two_eq (r : ℚ) (k : ℤ) (hlo : (2 : ℚ) ^ k ≤ r) (hhi : r < 2 ^ (k + 1)) :
    Int.log 2 r = k := by
  have hr : 0 < r := lt_of_lt_of_le (zpow_pos (by norm_num) k) hlo
  apply le_antisymm
  · have := (Int.lt_zpow_iff_log_lt (b := 2) (by norm_num) hr).mp
      (by simpa using hhi : r < ((2 : ℕ) : ℚ) ^ (k + 1))
    omega
  · exact (Int.zpow_le_iff_le_log (b := 2) (by norm_num) hr).mp
      (by simpa using hlo : ((2 : ℕ) : ℚ) ^ k ≤ r)

theorem roundBinary_eq (p : ℕ) (emin : ℤ) (big q : ℚ) (e n : ℤ)
    (hlo : (2 : ℚ) ^ (e + p - 1) ≤ |q|) (hhi : |q| < 2 ^ (e + p)) (he : emin ≤ e)
    (h1 : (n : ℚ) - 1 / 2 < |q| / 2 ^ e) (h2 : |q| / 2 ^ e < n + 1 / 2)
    (hbig : (n : ℚ) * 2 ^ e ≤ big) :
    roundBinary p emin big q = .fin (if q < 0 then -((n : ℚ) * 2 ^ e) else n * 2 ^ e) := by
  have ha : 0 < |q| := lt_of_lt_of_le (zpow_pos (by norm_num) _) hlo
  have hq0 : q ≠ 0 := abs_pos.mp ha
  have hlog : Int.log 2 |q| = e + p - 1 :=
    log_two_eq _ _ hlo (by rw [show e + p - 1 + 1 = e + p by ring]; exact hhi)
  have hmax : max (Int.log 2 |q| + 1 - (p : ℤ)) emin = e := by
    rw [hlog, show e + (p : ℤ) - 1 + 1 - p = e by ring]
    exact max_eq_left he
  unfold roundBinary
  rw [if_neg hq0]
  simp only []
  rw [hmax, roundHalfEven_eq _ n h1 h2, if_neg (not_lt.mpr hbig)]

theorem narrow_fin (q : ℚ) : narrow (.fin q) = float32 q := rfl

theorem float64_zero : float64 0 = .fin 0 := roundBinary_zero _ _ _

theorem float32_zero : float32 0 = .fin 0 := roundBinary_zero _ _ _

theorem narrow_zero : narrow (.fin 0) = .fin 0 := float32_zero

/-- A number with at most 24 significant bits, within the range of `float`, goes through
`double` and `float` unchanged. -/
theorem narrow_float64_exact (k s : ℤ) (hk : k ≠ 0) (hkp : |k| < 2 ^ 24) (hs : -149 ≤ s)
    (hbig : (|k| : ℚ) * 2 ^ s ≤ (2 ^ 24 - 1) * 2 ^ 104) :
    narrow (float64 (k * 2 ^ s)) = .fin (k * 2 ^ s) := by
  have h64 : float64 (k * 2 ^ s) = .fin (k * 2 ^ s) :=
    roundBinary_exact 53 (-1074) _ k s hk (lt_trans hkp (by norm_num)) (by omega)
      (le_trans hbig (by
        have h1 : (2 : ℚ) ^ (971 : ℕ) = 2 ^ (104 : ℕ) * 2 ^ (867 : ℕ) := by rw [← pow_add]
        have h2 : (1 : ℚ) ≤ 2 ^ (867 : ℕ) := one_le_pow₀ (by norm_num)
        have h3 : (0 : ℚ) < 2 ^ (104 : ℕ) := by positivity
        rw [h1]
        nlinarith))
  rw [h64, narrow_fin]
  exact roundBinary_exact 24 (-149) _ k s hk hkp hs hbig

/-- A number of magnitude at most `2 ^ j` is stored in a `float` as a finite value of
magnitude at most `2 ^ j` and of the same sign. -/
theorem narrow_float64_bounds (q : ℚ) (j : ℤ) (hj : -149 ≤ j) (hj2 : j ≤ 127)
    (hq : |q| ≤ 2 ^ j) :
    ∃ v, narrow (float64 q) = .fin v ∧ |v| ≤ 2 ^ j ∧ (0 ≤ q → 0 ≤ v) ∧ (q ≤ 0 → v ≤ 0) := by
  have hpow : (2 : ℚ) ^ j ≤ 2 ^ (127 : ℤ) := zpow_le_zpow_right₀ (by norm_num) hj2
  have hb32 : (2 : ℚ) ^ j ≤ (2 ^ 24 - 1) * 2 ^ 104 := le_trans hpow (by norm_num)
  have hb64 : (2 : ℚ) ^ j ≤ (2 ^ 53 - 1) * 2 ^ 971 := le_trans hpow (by norm_num)
  obtain ⟨w, hw, hwa, hw0, hw1⟩ :=
    roundBinary_bounds 53 (-1074) ((2 ^ 53 - 1) * 2 ^ 971) q j (by norm_num) (by omega) hb64 hq
  obtain ⟨v, hv, hva, hv0, hv1⟩ :=
    roundBinary_bounds 24 (-149) ((2 ^ 24 - 1) * 2 ^ 104) w j (by norm_num) hj hb32 hwa
  refine ⟨v, ?_, hva, fun h => hv0 (hw0 h), fun h => hv1 (hw1 h)⟩
  unfold float64
  rw [hw, narrow_fin]
  exact hv

/-! ## Conversions of text -/

theorem atof_of_textValue (s : String) (q : ℚ) (h : textValue s = some q) :
    atof s = float64 q := by
  unfold textValue at h
  unfold atof
  cases hs : scanNumber s with
  | none => rw [hs] at h; cases h
  | some n =>
    rw [hs] at h
    simp only [Option.some_bind] at h
    simp only [Numeral.toDouble, h]

theorem textValue_0_02 : textValue "0.02" = some (1 / 50) := by
  have h : scanNumber "0.02" = some (.dec false 2 2 0) := by rfl
  simp only [textValue, h, Option.some_bind, Numeral.exact]
  norm_num

theorem textValue_minus_2_0 : textValue "-2.0" = some (-2) := by
  have h : scanNumber "-2.0" = some (.dec true 20 1 0) := by rfl
  simp only [textValue, h, Option.some_bind, Numeral.exact]
  norm_num

theorem textValue_5 : textValue "5" = some 5 := by
  have h : scanNumber "5" = some (.dec false 5 0 0) := by rfl
  simp only [textValue, h, Option.some_bind, Numeral.exact]
  norm_num

theorem textValue_0_5 : textValue "0.5" = some (1 / 2) := by
  have h : scanNumber "0.5" = some (.dec false 5 1 0) := by rfl
  simp only [textValue, h, Option.some_bind, Numeral.exact]
  norm_num

theorem stored_minus_2_0 : narrow (atof "-2.0") = .fin (-2) := by
  rw [atof_of_textValue _ _ textValue_minus_2_0]
  have h := narrow_float64_exact (-1) 1 (by decide) (by decide) (by decide) (by norm_num)
  norm_num at h
  exact h

theorem stored_5 : narrow (atof "5") = .fin 5 := by
  rw [atof_of_textValue _ _ textValue_5]
  have h := narrow_float64_exact 5 0 (by decide) (by decide) (by decide) (by norm_num)
  norm_num at h
  exact h

theorem stored_0_5 : narrow (atof "0.5") = .fin (1 / 2) := by
  rw [atof_of_textValue _ _ textValue_0_5]
  have h := narrow_float64_exact 1 (-1) (by decide) (by decide) (by decide) (by norm_num)
  norm_num at h
  exact h

theorem atoi_minus_5 : atoi "-5" = -5 := by decide

theorem atoi_minus_1 : atoi "-1" = -1 := by decide

theorem float64_0_015 : float64 0.015 = .fin (8646911284551352 / 2 ^ 59) := by
  have h := roundBinary_eq 53 (-1074) ((2 ^ 53 - 1) * 2 ^ 971) (3 / 200) (-59)
    8646911284551352 (by norm_num [abs_of_pos]) (by norm_num [abs_of_pos]) (by norm_num)
    (by norm_num [abs_of_pos]) (by norm_num [abs_of_pos]) (by norm_num)
  norm_num at h
  unfold float64
  norm_num
  exact h

/-- The `float` nearest to 0.015, which `default_wigt` holds. -/
theorem default_wigt_eq : default_wigt = .fin (16106127 / 2 ^ 30) := by
  unfold default_wigt
  rw [float64_0_015, narrow_fin]
  have h := roundBinary_eq 24 (-149) ((2 ^ 24 - 1) * 2 ^ 104) (8646911284551352 / 2 ^ 59) (-30)
    16106127 (by norm_num [abs_of_pos]) (by norm_num [abs_of_pos]) (by norm_num)
    (by norm_num [abs_of_pos]) (by norm_num [abs_of_pos]) (by norm_num)
  norm_num at h
  unfold float32
  norm_num
  exact h

theorem default_awgt_eq : default_awgt = .fin 0 := by
  unfold default_awgt
  norm_num [float64_zero, narrow_zero]

theorem float64_minus_0_05 : float64 (-0.05) = .fin (-(7205759403792794 / 2 ^ 57)) := by
  have h := roundBinary_eq 53 (-1074) ((2 ^ 53 - 1) * 2 ^ 971) (-(1 / 20)) (-57)
    7205759403792794 (by norm_num [abs_of_pos]) (by norm_num [abs_of_pos]) (by norm_num)
    (by norm_num [abs_of_pos]) (by norm_num [abs_of_pos]) (by norm_num)
  norm_num at h
  unfold float64
  norm_num
  exact h

/-- The `float` nearest to -0.05, which `default_pswt` holds. -/
theorem default_pswt_eq : default_pswt = .fin (-(13421773 / 2 ^ 28)) := by
  unfold default_pswt
  rw [float64_minus_0_05, narrow_fin]
  have h := roundBinary_eq 24 (-149) ((2 ^ 24 - 1) * 2 ^ 104) (-(7205759403792794 / 2 ^ 57))
    (-28) 13421773 (by norm_num [abs_of_pos]) (by norm_num [abs_of_pos]) (by norm_num)
    (by norm_num [abs_of_pos]) (by norm_num [abs_of_pos]) (by norm_num)
  norm_num at h
  unfold float32
  norm_num
  exact h

theorem default_percent_slope_eq : default_percent_slope = .fin 3 := by
  unfold default_percent_slope
  have h := narrow_float64_exact 3 0 (by decide) (by decide) (by decide) (by norm_num)
  norm_num at h
  norm_num
  exact h

theorem float64_0_02 : float64 (1 / 50) = .fin (5764607523034235 / 2 ^ 58) := by
  have h := roundBinary_eq 53 (-1074) ((2 ^ 53 - 1) * 2 ^ 971) (1 / 50) (-58)
    5764607523034235 (by norm_num [abs_of_pos]) (by norm_num [abs_of_pos]) (by norm_num)
    (by norm_num [abs_of_pos]) (by norm_num [abs_of_pos]) (by norm_num)
  norm_num at h
  unfold float64
  norm_num
  exact h

/-- The value stored for the text `0.02`: the `float` nearest to the `double` nearest to
1/50. -/
theorem stored_0_02 : narrow (atof "0.02") = .fin (5368709 / 2 ^ 28) := by
  rw [atof_of_textValue _ _ textValue_0_02, float64_0_02, narrow_fin]
  have h := roundBinary_eq 24 (-149) ((2 ^ 24 - 1) * 2 ^ 104) (5764607523034235 / 2 ^ 58) (-29)
    10737418 (by norm_num [abs_of_pos]) (by norm_num [abs_of_pos]) (by norm_num)
    (by norm_num [abs_of_pos]) (by norm_num [abs_of_pos]) (by norm_num)
  norm_num at h
  unfold float32
  norm_num
  exact h

/-- The defaults pass their own checks for a tolerance between 0 and 1. -/
theorem defaults_pass (MINSIGMA : ℚ) (h0 : 0 ≤ MINSIGMA) (h1 : MINSIGMA ≤ 1) :
    (default_wigt.lt 0 || (default_wigt.sub 2).gt MINSIGMA) = false ∧
    ((default_awgt.add 2).lt MINSIGMA || (default_awgt.sub 2).gt MINSIGMA) = false ∧
    ((default_pswt.add 2).lt MINSIGMA || (default_pswt.sub 2).gt MINSIGMA) = false ∧
    (default_percent_slope.lt 0 || (default_percent_slope.sub 100).gt MINSIGMA) = false := by
  rw [default_wigt_eq, default_awgt_eq, default_pswt_eq, default_percent_slope_eq]
  simp only [CFloat.lt, CFloat.gt, CFloat.add, CFloat.sub, Bool.or_eq_false_iff,
    decide_eq_false_iff_not, not_lt]
  refine ⟨⟨?_, ?_⟩, ⟨?_, ?_⟩, ⟨?_, ?_⟩, ?_, ?_⟩ <;> norm_num <;> linarith

/-! ## The loop bound is never used up -/

theorem process_long_option_rest (g : GetoptData) (l : Locals) (tok : String)
    (body : List Char) :
    (process_long_option g l tok body).g.rest.length ≤ g.rest.length := by
  unfold process_long_option
  simp only []
  split
  · simp
  · simp
  · split
    · split
      · split <;> simp
      · simp
    · split
      · split
        · rename_i hrest
          split <;> simp [hrest]
        · simp
      · split <;> simp

theorem getopt_long_progress (g : GetoptData) (l : Locals) :
    (getopt_long g l).c = -1 ∨ (getopt_long g l).c = chr '?' ∨
      (getopt_long g l).g.rest.length < g.rest.length := by
  unfold getopt_long
  split
  · right; left; simp [short_option]
  · split
    · left; rfl
    · rename_i tok rest hdrop
      have hlen : (tok :: rest).length ≤ g.rest.length := by
        rw [← hdrop]; exact (List.dropWhile_sublist _).length_le
      split
      · left; rfl
      · split
        · right; right
          refine lt_of_le_of_lt (process_long_option_rest _ _ _ _) ?_
          simp only [List.length_cons] at hlen
          simp only []
          omega
        · right; left; simp [short_option]
        · left; rfl

theorem switch_c_unknown (r : GetoptReturn) (o : Outputs) (h : r.c = chr '?') :
    switch_c r o =
      .inr { ret := .ERROR, msg := some (unknown_option_msg r.g.beforeOptind), usage := true,
             out := o, getopt := r.g } := by
  have h0 : (chr '?' : Int) = 63 := rfl
  rw [h0] at h
  simp [switch_c, h, chr]

theorem get_args_loop_isSome (fuel : Nat) :
    ∀ (g : GetoptData) (l : Locals) (o : Outputs), g.rest.length < fuel →
      (get_args_loop fuel g l o).isSome = true := by
  induction fuel with
  | zero => intro g l o h; omega
  | succ n ih =>
    intro g l o h
    rw [get_args_loop]
    split
    · rfl
    · rename_i hc
      rcases getopt_long_progress g l with h1 | h1 | h1
      · exact absurd h1 hc
      · rw [switch_c_unknown _ _ h1]; rfl
      · split
        · rfl
        · exact ih _ _ _ (by omega)

/-- The function `get_args` returns on every input: the bound of its loop is never reached. -/
theorem get_args_returns (MINSIGMA : ℚ) (g : GetoptData) (l : Locals) (o : Outputs) :
    ∃ r, get_args MINSIGMA g l o = some r := by
  unfold get_args
  split
  · exact ⟨_, rfl⟩
  · have h := get_args_loop_isSome (g.rest.length + 1) g l (assign_defaults o) (by omega)
    cases hloop : get_args_loop (g.rest.length + 1) g l (assign_defaults o) with
    | none => rw [hloop] at h; cases h
    | some e =>
      cases e with
      | returned r => exact ⟨r, rfl⟩
      | finished g1 l1 o1 => exact ⟨_, rfl⟩

/-! ## The scan and the validation, in general -/

theorem get_args_loop_mono (fuel : Nat) :
    ∀ (g : GetoptData) (l : Locals) (o : Outputs) (e : LoopEnd),
      get_args_loop fuel g l o = some e → ∀ k, get_args_loop (fuel + k) g l o = some e := by
  induction fuel with
  | zero => intro g l o e h; simp [get_args_loop] at h
  | succ n ih =>
    intro g l o e h k
    have hk : n + 1 + k = (n + k) + 1 := by omega
    rw [hk, get_args_loop]
    rw [get_args_loop] at h
    split
    · rename_i hc; rw [if_pos hc] at h; exact h
    · rename_i hc
      rw [if_neg hc] at h
      split
      · rename_i res hsw; rw [hsw] at h; exact h
      · rename_i o1 hsw; rw [hsw] at h; exact ih _ _ _ _ h k

theorem get_args_loop_bound (fuel : Nat) (g : GetoptData) (l : Locals) (o : Outputs)
    (e : LoopEnd) (h : get_args_loop fuel g l o = some e) :
    get_args_loop (g.rest.length + 1) g l o = some e := by
  have h1 := get_args_loop_isSome (g.rest.length + 1) g l o (by omega)
  cases h2 : get_args_loop (g.rest.length + 1) g l o with
  | none => rw [h2] at h1; cases h1
  | some e2 =>
    have h3 := get_args_loop_mono _ _ _ _ _ h2 fuel
    have h4 := get_args_loop_mono _ _ _ _ _ h (g.rest.length + 1)
    rw [Nat.add_comm] at h4
    rw [h3] at h4
    exact h4

theorem get_args_of_finished (MINSIGMA : ℚ) (fuel : Nat) (g g1 : GetoptData) (l l1 : Locals)
    (o o1 : Outputs) (hargc : g.argc ≠ 1)
    (hscan : get_args_loop fuel g l (assign_defaults o) = some (.finished g1 l1 o1)) :
    get_args MINSIGMA g l o = some (validate MINSIGMA g1 (grab_flags l1 o1)) := by
  unfold get_args
  rw [if_neg hargc, get_args_loop_bound _ _ _ _ _ hscan]

theorem get_args_of_returned (MINSIGMA : ℚ) (fuel : Nat) (g : GetoptData) (l : Locals)
    (o : Outputs) (r : Result) (hargc : g.argc ≠ 1)
    (hscan : get_args_loop fuel g l (assign_defaults o) = some (.returned r)) :
    get_args MINSIGMA g l o = some r := by
  unfold get_args
  rw [if_neg hargc, get_args_loop_bound _ _ _ _ _ hscan]

theorem argc_fresh (argv : List String) : (fresh argv).argc = argv.length := by
  cases argv <;> simp [GetoptData.argc, GetoptData.argv, fresh]

/-! ## Comparisons of floating values -/

theorem CFloat.lt_mono (x : CFloat) (c d : ℚ) (hcd : c ≤ d) (h : x.lt c = true) :
    x.lt d = true := by
  cases x with
  | nan => exact h
  | inf neg => exact h
  | fin q =>
    simp only [CFloat.lt, decide_eq_true_eq] at h ⊢
    linarith

theorem CFloat.gt_anti (x : CFloat) (c d : ℚ) (hcd : d ≤ c) (h : x.gt c = true) :
    x.gt d = true := by
  cases x with
  | nan => exact h
  | inf neg => exact h
  | fin q =>
    simp only [CFloat.gt, decide_eq_true_eq] at h ⊢
    linarith

theorem CFloat.sub_gt (x : CFloat) (c m : ℚ) : (x.sub c).gt m = x.gt (c + m) := by
  cases x with
  | nan => rfl
  | inf neg => rfl
  | fin q =>
    simp only [CFloat.sub, CFloat.gt]
    exact decide_eq_decide.mpr ⟨fun h => by linarith, fun h => by linarith⟩

theorem CFloat.add_lt (x : CFloat) (c m : ℚ) : (x.add c).lt m = x.lt (m - c) := by
  cases x with
  | nan => rfl
  | inf neg => rfl
  | fin q =>
    simp only [CFloat.add, CFloat.lt]
    exact decide_eq_decide.mpr ⟨fun h => by linarith, fun h => by linarith⟩

/-! ## The validation -/

theorem validate_success (MINSIGMA : ℚ) (g : GetoptData) (o : Outputs)
    (hx : o.xml_infile ≠ none)
    (hw : (o.wigt.lt 0 || (o.wigt.sub 2).gt MINSIGMA) = false)
    (ha : ((o.awgt.add 2).lt MINSIGMA || (o.awgt.sub 2).gt MINSIGMA) = false)
    (hp : ((o.pswt.add 2).lt MINSIGMA || (o.pswt.sub 2).gt MINSIGMA) = false)
    (hn : 0 ≤ o.pswnt) (hs : 0 ≤ o.pswst)
    (hl : (o.percent_slope.lt 0 || (o.percent_slope.sub 100).gt MINSIGMA) = false) :
    validate MINSIGMA g o =
      { ret := .SUCCESS, msg := none, usage := false, out := o, getopt := g } := by
  unfold validate
  rw [if_neg hx, if_neg (Bool.eq_false_iff.mp hw), if_neg (Bool.eq_false_iff.mp ha),
    if_neg (Bool.eq_false_iff.mp hp), if_neg (by omega), if_neg (by omega),
    if_neg (Bool.eq_false_iff.mp hl)]

theorem validate_cases (MINSIGMA : ℚ) (g : GetoptData) (o : Outputs) :
    (validate MINSIGMA g o).ret = Status.ERROR ∨
      (o.xml_infile ≠ none ∧
        (o.wigt.lt 0 || (o.wigt.sub 2).gt MINSIGMA) = false ∧
        ((o.awgt.add 2).lt MINSIGMA || (o.awgt.sub 2).gt MINSIGMA) = false ∧
        ((o.pswt.add 2).lt MINSIGMA || (o.pswt.sub 2).gt MINSIGMA) = false ∧
        0 ≤ o.pswnt ∧ 0 ≤ o.pswst ∧
        (o.percent_slope.lt 0 || (o.percent_slope.sub 100).gt MINSIGMA) = false) := by
  unfold validate
  split_ifs with h1 h2 h3 h4 h5 h6 h7
  · left; rfl
  · left; rfl
  · left; rfl
  · left; rfl
  · left; rfl
  · left; rfl
  · left; rfl
  · right
    exact ⟨h1, Bool.eq_false_iff.mpr h2, Bool.eq_false_iff.mpr h3, Bool.eq_false_iff.mpr h4,
      not_lt.mp h5, not_lt.mp h6, Bool.eq_false_iff.mpr h7⟩

theorem validate_out (MINSIGMA : ℚ) (g : GetoptData) (o : Outputs) :
    (validate MINSIGMA g o).out = o := by
  unfold validate
  split_ifs <;> rfl

theorem get_args_success_of_finished (MINSIGMA : ℚ) (fuel : Nat) (g g1 : GetoptData)
    (l l1 : Locals) (o o1 : Outputs) (hargc : g.argc ≠ 1)
    (hscan : get_args_loop fuel g l (assign_defaults o) = some (.finished g1 l1 o1))
    (hx : o1.xml_infile ≠ none)
    (hw : (o1.wigt.lt 0 || (o1.wigt.sub 2).gt MINSIGMA) = false)
    (ha : ((o1.awgt.add 2).lt MINSIGMA || (o1.awgt.sub 2).gt MINSIGMA) = false)
    (hp : ((o1.pswt.add 2).lt MINSIGMA || (o1.pswt.sub 2).gt MINSIGMA) = false)
    (hn : 0 ≤ o1.pswnt) (hs : 0 ≤ o1.pswst)
    (hl : (o1.percent_slope.lt 0 || (o1.percent_slope.sub 100).gt MINSIGMA) = false) :
    get_args MINSIGMA g l o =
      some { ret := .SUCCESS, msg := none, usage := false, out := grab_flags l1 o1,
             getopt := g1 } := by
  rw [get_args_of_finished MINSIGMA fuel g g1 l l1 o o1 hargc hscan,
    validate_success MINSIGMA g1 (grab_flags l1 o1) hx hw ha hp hn hs hl]

/-! ## C1 -/

theorem get_args_xml_only (MINSIGMA : ℚ) (h0 : 0 ≤ MINSIGMA) (h1 : MINSIGMA ≤ 1)
    (prog P : String) (l : Locals) (o : Outputs) :
    get_args MINSIGMA (fresh [prog, "--xml", P]) l o =
      some { ret := .SUCCESS, msg := none, usage := false,
             out := { xml_infile := some P,
                      use_ledaps_mask_flag := decide (l.tmp_ledaps_mask_flag ≠ 0),
                      use_zeven_thorne_flag := decide (l.tmp_zeven_thorne_flag ≠ 0),
                      use_toa_flag := decide (l.tmp_toa_flag ≠ 0),
                      wigt := default_wigt, awgt := default_awgt, pswt := default_pswt,
                      percent_slope := default_percent_slope,
                      pswnt := 1500, pswst := 1000,
                      verbose_flag := decide (l.tmp_verbose_flag ≠ 0) },
             getopt := ⟨[prog, "--xml", P], [], [], [], []⟩ } := by
  obtain ⟨dw, da, dp, ds⟩ := defaults_pass MINSIGMA h0 h1
  exact get_args_success_of_finished MINSIGMA 3 _ ⟨[prog, "--xml", P], [], [], [], []⟩ l
    { l with option_index := 3 } o { assign_defaults o with xml_infile := some P }
    (by rw [argc_fresh]; simp) rfl (by simp) dw da dp
    (by show (0 : Int) ≤ default_pswnt; decide) (by show (0 : Int) ≤ default_pswst; decide) ds

/-- C1 (failing input): with `--xml scene.xml` alone, a stack slot of `tmp_verbose_flag` that
holds 1 on entry makes `get_args` succeed with the verbose output `true`: the staging flags
are read without ever having been set to false. -/
theorem C1_flag_read_uninitialised :
    (get_args sampleSigma (fresh ["dswe", "--xml", "scene.xml"])
        { stack0 with tmp_verbose_flag := 1 } entry0).map
      (fun r => (r.ret, r.out.verbose_flag)) = some (Status.SUCCESS, true) := by
  rw [get_args_xml_only sampleSigma (by norm_num [sampleSigma]) (by norm_num [sampleSigma])]
  rfl

/-! ## C2 -/

/-- C2: for every program name, path `P` and numeric text `V` whose value `q` lies in [0, 2],
and whatever the stack and the output locations hold on entry, the arguments
`--xml P --wigt V --use-toa` make `get_args` return `SUCCESS` with the input path `P`, `wigt`
the conversion of `V` (the `float` nearest to the `double` nearest to `q`, itself a value
in [0, 2]), `use_toa` true and the five other numeric fields at their defaults (for a
tolerance between 0 and 1). -/
theorem C2_xml_wigt_use_toa (MINSIGMA : ℚ) (prog P V : String) (q : ℚ) (l : Locals)
    (o : Outputs) (h0 : 0 ≤ MINSIGMA) (h1 : MINSIGMA ≤ 1) (hV : textValue V = some q)
    (hq0 : 0 ≤ q) (hq2 : q ≤ 2) :
    ∃ r, get_args MINSIGMA (fresh [prog, "--xml", P, "--wigt", V, "--use-toa"]) l o = some r ∧
      r.ret = Status.SUCCESS ∧ r.out.xml_infile = some P ∧
      r.out.wigt = narrow (atof V) ∧ r.out.wigt = narrow (float64 q) ∧
      r.out.wigt.within 0 2 = true ∧ r.out.use_toa_flag = true ∧
      r.out.awgt = default_awgt ∧ r.out.pswt = default_pswt ∧ r.out.pswnt = 1500 ∧
      r.out.pswst = 1000 ∧ r.out.percent_slope = default_percent_slope := by
  obtain ⟨dw, da, dp, ds⟩ := defaults_pass MINSIGMA h0 h1
  obtain ⟨v, hv, hva, hv0, _⟩ := narrow_float64_bounds q 1 (by decide) (by decide)
    (by rw [abs_of_nonneg hq0]; simpa using hq2)
  have hv2 : v ≤ 2 := by
    have := (abs_le.mp hva).2
    simpa using this
  have hconv : narrow (atof V) = .fin v := by rw [atof_of_textValue V q hV]; exact hv
  have hscan : get_args_loop 6 (fresh [prog, "--xml", P, "--wigt", V, "--use-toa"]) l
        (assign_defaults o) =
      some (.finished ⟨[prog, "--xml", P, "--wigt", V, "--use-toa"], [], [], [], []⟩
        { l with option_index := 2, tmp_toa_flag := 1 }
        { assign_defaults o with xml_infile := some P, wigt := narrow (atof V) }) := rfl
  have hw : ((narrow (atof V)).lt 0 || ((narrow (atof V)).sub 2).gt MINSIGMA) = false := by
    rw [hconv]
    simp only [CFloat.lt, CFloat.gt, CFloat.sub, Bool.or_eq_false_iff, decide_eq_false_iff_not,
      not_lt]
    exact ⟨hv0 hq0, by linarith⟩
  refine ⟨_, get_args_success_of_finished MINSIGMA 6 _ _ l _ o _ (by rw [argc_fresh]; simp)
    hscan (by simp) hw da dp (by show (0 : Int) ≤ default_pswnt; decide)
    (by show (0 : Int) ≤ default_pswst; decide) ds, rfl, rfl, rfl, ?_, ?_, rfl, rfl, rfl, rfl, rfl,
    rfl⟩
  · show narrow (atof V) = narrow (float64 q)
    rw [atof_of_textValue V q hV]
  · show (narrow (atof V)).within 0 2 = true
    rw [hconv]
    simp only [CFloat.within, decide_eq_true_eq]
    exact ⟨hv0 hq0, hv2⟩

/-- Witness of C2: `--xml scene.xml --wigt 0.02 --use-toa`; the value stored for `0.02` is the
`float` 5368709 / 2 ^ 28. -/
theorem C2_xml_wigt_use_toa_witness :
    ((0 : ℚ) ≤ sampleSigma ∧ sampleSigma ≤ 1 ∧ textValue "0.02" = some (1 / 50) ∧
      (0 : ℚ) ≤ 1 / 50 ∧ (1 / 50 : ℚ) ≤ 2) ∧
    narrow (atof "0.02") = .fin (5368709 / 2 ^ 28) ∧
    ∃ r, get_args sampleSigma
          (fresh ["dswe", "--xml", "scene.xml", "--wigt", "0.02", "--use-toa"]) stack0 entry0
        = some r ∧
      r.ret = Status.SUCCESS ∧ r.out.xml_infile = some "scene.xml" ∧
      r.out.wigt = narrow (atof "0.02") ∧ r.out.wigt = narrow (float64 (1 / 50)) ∧
      r.out.wigt.within 0 2 = true ∧ r.out.use_toa_flag = true ∧
      r.out.awgt = default_awgt ∧ r.out.pswt = default_pswt ∧ r.out.pswnt = 1500 ∧
      r.out.pswst = 1000 ∧ r.out.percent_slope = default_percent_slope :=
  ⟨⟨by norm_num [sampleSigma], by norm_num [sampleSigma], textValue_0_02, by norm_num,
      by norm_num⟩,
   stored_0_02,
   C2_xml_wigt_use_toa sampleSigma "dswe" "scene.xml" "0.02" (1 / 50) stack0 entry0
     (by norm_num [sampleSigma]) (by norm_num [sampleSigma]) textValue_0_02 (by norm_num)
     (by norm_num)⟩

/-! ## C3 -/

/-- C3 (failing input): for every positive tolerance, `--xml P --awgt -2.0` is rejected with
the text "AWGT is out of range": the lower boundary -2.0 of the documented range is not
accepted, because the test `awgt + 2 < MINSIGMA` holds there. -/
theorem C3_lower_boundary_rejected (MINSIGMA : ℚ) (prog P : String) (l : Locals) (o : Outputs)
    (h0 : 0 < MINSIGMA) :
    ∃ r, get_args MINSIGMA (fresh [prog, "--xml", P, "--awgt", "-2.0"]) l o = some r ∧
      r.ret = Status.ERROR ∧ r.msg = some "AWGT is out of range\n\n" ∧
      r.out.awgt = .fin (-2) := by
  have hscan : get_args_loop 5 (fresh [prog, "--xml", P, "--awgt", "-2.0"]) l
        (assign_defaults o) =
      some (.finished ⟨[prog, "--xml", P, "--awgt", "-2.0"], [], [], [], []⟩
        { l with option_index := 5 }
        { assign_defaults o with xml_infile := some P, awgt := narrow (atof "-2.0") }) := rfl
  rw [get_args_of_finished MINSIGMA 5 _ _ _ _ _ _ (by rw [argc_fresh]; simp) hscan,
    stored_minus_2_0]
  unfold validate
  rw [if_neg (by simp [grab_flags]),
    if_neg (by
      show ¬ ((default_wigt.lt 0 || (default_wigt.sub 2).gt MINSIGMA) = true)
      rw [default_wigt_eq]
      simp only [CFloat.lt, CFloat.gt, CFloat.sub, Bool.or_eq_true, decide_eq_true_eq, not_or,
        not_lt]
      constructor
      · norm_num
      · norm_num
        linarith),
    if_pos (by
      show (((CFloat.fin (-2)).add 2).lt MINSIGMA ||
        ((CFloat.fin (-2)).sub 2).gt MINSIGMA) = true
      simp only [CFloat.lt, CFloat.gt, CFloat.add, CFloat.sub, Bool.or_eq_true,
        decide_eq_true_eq]
      left
      norm_num
      exact h0)]
  exact ⟨_, rfl, rfl, rfl, rfl⟩

/-- Witness of C3's failing input at the tolerance 1e-5. -/
theorem C3_lower_boundary_rejected_witness :
    (0 : ℚ) < sampleSigma ∧
    ∃ r, get_args sampleSigma (fresh ["dswe", "--xml", "scene.xml", "--awgt", "-2.0"])
          stack0 entry0 = some r ∧
      r.ret = Status.ERROR ∧ r.msg = some "AWGT is out of range\n\n" ∧
      r.out.awgt = .fin (-2) :=
  ⟨by norm_num [sampleSigma],
   C3_lower_boundary_rejected sampleSigma "dswe" "scene.xml" stack0 entry0
     (by norm_num [sampleSigma])⟩

/-! ## C4 -/

/-- C4: whenever the option scan runs to its end (with `argc` other than 1) and the final
value of a numeric field lies outside its documented range by more than the tolerance (for
`pswnt` and `pswst`: is negative), `get_args` returns `ERROR`; this holds for every tolerance
that is not negative, and whether or not `--xml` was supplied.  An infinite value lies
outside every range. -/
theorem C4_out_of_range_is_error (MINSIGMA : ℚ) (fuel : Nat) (g g1 : GetoptData)
    (l l1 : Locals) (o o1 : Outputs) (h0 : 0 ≤ MINSIGMA) (hargc : g.argc ≠ 1)
    (hscan : get_args_loop fuel g l (assign_defaults o) = some (.finished g1 l1 o1))
    (hout : o1.wigt.lt (0 - MINSIGMA) = true ∨ o1.wigt.gt (2 + MINSIGMA) = true ∨
      o1.awgt.lt (-2 - MINSIGMA) = true ∨ o1.awgt.gt (2 + MINSIGMA) = true ∨
      o1.pswt.lt (-2 - MINSIGMA) = true ∨ o1.pswt.gt (2 + MINSIGMA) = true ∨
      o1.percent_slope.lt (0 - MINSIGMA) = true ∨
      o1.percent_slope.gt (100 + MINSIGMA) = true ∨
      o1.pswnt < 0 ∨ o1.pswst < 0) :
    ∃ r, get_args MINSIGMA g l o = some r ∧ r.ret = Status.ERROR := by
  refine ⟨_, get_args_of_finished MINSIGMA fuel g g1 l l1 o o1 hargc hscan, ?_⟩
  rcases validate_cases MINSIGMA g1 (grab_flags l1 o1) with h | ⟨_, hw, ha, hp, hn, hs, hl⟩
  · exact h
  · exfalso
    simp only [grab_flags, Bool.or_eq_false_iff, CFloat.sub_gt, CFloat.add_lt] at hw ha hp hn hs hl
    rcases hout with h | h | h | h | h | h | h | h | h | h
    · have := CFloat.lt_mono _ _ 0 (by linarith) h
      rw [hw.1] at this; cases this
    · rw [hw.2] at h; cases h
    · have := CFloat.lt_mono _ _ (MINSIGMA - 2) (by linarith) h
      rw [ha.1] at this; cases this
    · rw [ha.2] at h; cases h
    · have := CFloat.lt_mono _ _ (MINSIGMA - 2) (by linarith) h
      rw [hp.1] at this; cases this
    · rw [hp.2] at h; cases h
    · have := CFloat.lt_mono _ _ 0 (by linarith) h
      rw [hl.1] at this; cases this
    · rw [hl.2] at h; cases h
    · omega
    · omega

/-- Witness of C4: `--xml scene.xml --wigt 5`. -/
theorem C4_out_of_range_is_error_witness :
    ((0 : ℚ) ≤ sampleSigma ∧
      (fresh ["dswe", "--xml", "scene.xml", "--wigt", "5"]).argc ≠ 1 ∧
      get_args_loop 5 (fresh ["dswe", "--xml", "scene.xml", "--wigt", "5"]) stack0
          (assign_defaults entry0) =
        some (.finished ⟨["dswe", "--xml", "scene.xml", "--wigt", "5"], [], [], [], []⟩
          { stack0 with option_index := 4 }
          { assign_defaults entry0 with
            xml_infile := some "scene.xml", wigt := narrow (atof "5") }) ∧
      (narrow (atof "5")).gt (2 + sampleSigma) = true) ∧
    ∃ r, get_args sampleSigma (fresh ["dswe", "--xml", "scene.xml", "--wigt", "5"]) stack0
          entry0 = some r ∧ r.ret = Status.ERROR :=
  ⟨⟨by norm_num [sampleSigma], by decide, rfl,
      by rw [stored_5]; norm_num [CFloat.gt, sampleSigma]⟩,
   C4_out_of_range_is_error sampleSigma 5 _ _ stack0 _ entry0 _
     (by norm_num [sampleSigma]) (by decide) rfl
     (Or.inr (Or.inl (by
       show (narrow (atof "5")).gt (2 + sampleSigma) = true
       rw [stored_5]; norm_num [CFloat.gt, sampleSigma])))⟩

/-! ## C5 -/

theorem validate_first_violation (MINSIGMA : ℚ) (g : GetoptData) (o : Outputs) :
    validate MINSIGMA g o =
      match first_violation MINSIGMA o with
      | some text => fail text g o
      | none => { ret := .SUCCESS, msg := none, usage := false, out := o, getopt := g } := by
  unfold validate first_violation checks
  split_ifs with h1 h2 h3 h4 h5 h6 h7 <;> simp [List.find?, *]

/-- C5: when the scan runs to its end, the result of `get_args` is decided by the earliest
violated check in the order input path, WIGT, AWGT, PSWT, PSWNT, PSWST, percent slope: it is
the failure carrying the text of that check, whatever the later checks would say, and
`SUCCESS` when no check is violated. -/
theorem C5_first_violation_wins (MINSIGMA : ℚ) (fuel : Nat) (g g1 : GetoptData)
    (l l1 : Locals) (o o1 : Outputs) (hargc : g.argc ≠ 1)
    (hscan : get_args_loop fuel g l (assign_defaults o) = some (.finished g1 l1 o1)) :
    get_args MINSIGMA g l o =
      some (match first_violation MINSIGMA (grab_flags l1 o1) with
        | some text => fail text g1 (grab_flags l1 o1)
        | none => { ret := .SUCCESS, msg := none, usage := false, out := grab_flags l1 o1,
                    getopt := g1 }) := by
  rw [get_args_of_finished MINSIGMA fuel g g1 l l1 o o1 hargc hscan, validate_first_violation]

/-- Witness of C5: `--wigt 5 --pswnt -1` without `--xml` violates three checks at once; the
text reported is that of the first, the missing input file. -/
theorem C5_first_violation_wins_witness :
    ((fresh ["dswe", "--wigt", "5", "--pswnt", "-1"]).argc ≠ 1 ∧
      get_args_loop 5 (fresh ["dswe", "--wigt", "5", "--pswnt", "-1"]) stack0
          (assign_defaults entry0) =
        some (.finished ⟨["dswe", "--wigt", "5", "--pswnt", "-1"], [], [], [], []⟩
          { stack0 with option_index := 7 }
          { assign_defaults entry0 with wigt := narrow (atof "5"), pswnt := atoi "-1" })) ∧
    get_args sampleSigma (fresh ["dswe", "--wigt", "5", "--pswnt", "-1"]) stack0 entry0 =
      some (match first_violation sampleSigma (grab_flags { stack0 with option_index := 7 }
            { assign_defaults entry0 with wigt := narrow (atof "5"), pswnt := atoi "-1" }) with
        | some text => fail text ⟨["dswe", "--wigt", "5", "--pswnt", "-1"], [], [], [], []⟩
            (grab_flags { stack0 with option_index := 7 }
              { assign_defaults entry0 with wigt := narrow (atof "5"), pswnt := atoi "-1" })
        | none => { ret := .SUCCESS, msg := none, usage := false,
                    out := grab_flags { stack0 with option_index := 7 }
                      { assign_defaults entry0 with
                        wigt := narrow (atof "5"), pswnt := atoi "-1" },
                    getopt := ⟨["dswe", "--wigt", "5", "--pswnt", "-1"], [], [], [], []⟩ }) :=
  ⟨⟨by decide, rfl⟩,
   C5_first_violation_wins sampleSigma 5 (fresh ["dswe", "--wigt", "5", "--pswnt", "-1"])
     ⟨["dswe", "--wigt", "5", "--pswnt", "-1"], [], [], [], []⟩ stack0
     { stack0 with option_index := 7 } entry0
     { assign_defaults entry0 with wigt := narrow (atof "5"), pswnt := atoi "-1" }
     (by decide) rfl⟩

/-! ## C7 -/

/-- C7: with `argc` equal to 1, `get_args` returns `ERROR` with the text "Missing required
command line arguments" and the usage text; the output locations and the state of
`getopt_long` are as on entry, so no default was assigned and nothing was scanned. -/
theorem C7_no_arguments (MINSIGMA : ℚ) (g : GetoptData) (l : Locals) (o : Outputs)
    (h : g.argc = 1) :
    get_args MINSIGMA g l o =
      some { ret := .ERROR, msg := some "Missing required command line arguments\n\n",
             usage := true, out := o, getopt := g } := by
  unfold get_args
  rw [if_pos h]

/-- Witness of C7: the program name alone. -/
theorem C7_no_arguments_witness :
    (fresh ["dswe"]).argc = 1 ∧
    get_args sampleSigma (fresh ["dswe"]) stack0 entry0 =
      some { ret := .ERROR, msg := some "Missing required command line arguments\n\n",
             usage := true, out := entry0, getopt := fresh ["dswe"] } :=
  ⟨by decide, C7_no_arguments sampleSigma (fresh ["dswe"]) stack0 entry0 (by decide)⟩

/-! ## C8 -/

/-- C8 (failing input): on `--xml scene.xml -ab` the unknown option is the cluster `-ab`, yet
the text reported is "Unknown option scene.xml": `getopt_long` has not moved `optind` past a
cluster with unread characters, so `argv[optind - 1]` is the element before it. -/
theorem C8_cluster_names_previous_element :
    (get_args sampleSigma (fresh ["dswe", "--xml", "scene.xml", "-ab"]) stack0 entry0).map
      (fun r => (r.ret, r.msg)) = some (Status.ERROR, some "Unknown option scene.xml\n\n") := by
  have hscan : get_args_loop 4 (fresh ["dswe", "--xml", "scene.xml", "-ab"]) stack0
      (assign_defaults entry0) =
      some (.returned
        { ret := .ERROR, msg := some "Unknown option scene.xml\n\n", usage := true,
          out := { assign_defaults entry0 with xml_infile := some "scene.xml" },
          getopt := ⟨["dswe", "--xml", "scene.xml"], [], [], ["-ab"], ['b']⟩ }) := by
    rfl
  rw [get_args_of_returned sampleSigma 4 _ _ _ _ (by decide) hscan]
  rfl

/-! ## C10 -/

theorem validate_pswnt_negative (MINSIGMA : ℚ) (g : GetoptData) (o : Outputs)
    (hx : o.xml_infile ≠ none)
    (hw : (o.wigt.lt 0 || (o.wigt.sub 2).gt MINSIGMA) = false)
    (ha : ((o.awgt.add 2).lt MINSIGMA || (o.awgt.sub 2).gt MINSIGMA) = false)
    (hp : ((o.pswt.add 2).lt MINSIGMA || (o.pswt.sub 2).gt MINSIGMA) = false)
    (hn : o.pswnt < 0) :
    validate MINSIGMA g o = fail "PSWB4T is out of range\n\n" g o := by
  unfold validate
  rw [if_neg hx, if_neg (Bool.eq_false_iff.mp hw), if_neg (Bool.eq_false_iff.mp ha),
    if_neg (Bool.eq_false_iff.mp hp), if_pos hn]

theorem validate_pswst_negative (MINSIGMA : ℚ) (g : GetoptData) (o : Outputs)
    (hx : o.xml_infile ≠ none)
    (hw : (o.wigt.lt 0 || (o.wigt.sub 2).gt MINSIGMA) = false)
    (ha : ((o.awgt.add 2).lt MINSIGMA || (o.awgt.sub 2).gt MINSIGMA) = false)
    (hp : ((o.pswt.add 2).lt MINSIGMA || (o.pswt.sub 2).gt MINSIGMA) = false)
    (hn : 0 ≤ o.pswnt) (hs : o.pswst < 0) :
    validate MINSIGMA g o = fail "PSWB4T is out of range\n\n" g o := by
  unfold validate
  rw [if_neg hx, if_neg (Bool.eq_false_iff.mp hw), if_neg (Bool.eq_false_iff.mp ha),
    if_neg (Bool.eq_false_iff.mp hp), if_neg (by omega), if_pos hs]

/-- C10 (failing input): `--pswst -5` and `--pswnt -5` are both rejected with the same text,
"PSWB4T is out of range", which names neither PSWNT nor PSWST; the two failures cannot be
told apart. -/
theorem C10_pswnt_pswst_same_text :
    (get_args sampleSigma (fresh ["dswe", "--xml", "scene.xml", "--pswst", "-5"]) stack0
        entry0).map (fun r => (r.ret, r.msg)) =
      some (Status.ERROR, some "PSWB4T is out of range\n\n") ∧
    (get_args sampleSigma (fresh ["dswe", "--xml", "scene.xml", "--pswnt", "-5"]) stack0
        entry0).map (fun r => (r.ret, r.msg)) =
      some (Status.ERROR, some "PSWB4T is out of range\n\n") := by
  have hs : get_args_loop 5 (fresh ["dswe", "--xml", "scene.xml", "--pswst", "-5"]) stack0
      (assign_defaults entry0) =
      some (.finished ⟨["dswe", "--xml", "scene.xml", "--pswst", "-5"], [], [], [], []⟩
        { stack0 with option_index := 8 }
        { assign_defaults entry0 with xml_infile := some "scene.xml", pswst := atoi "-5" }) :=
    rfl
  have hn : get_args_loop 5 (fresh ["dswe", "--xml", "scene.xml", "--pswnt", "-5"]) stack0
      (assign_defaults entry0) =
      some (.finished ⟨["dswe", "--xml", "scene.xml", "--pswnt", "-5"], [], [], [], []⟩
        { stack0 with option_index := 7 }
        { assign_defaults entry0 with xml_infile := some "scene.xml", pswnt := atoi "-5" }) :=
    rfl
  obtain ⟨dw, da, dp, _⟩ :=
    defaults_pass sampleSigma (by norm_num [sampleSigma]) (by norm_num [sampleSigma])
  rw [get_args_of_finished sampleSigma 5 _ _ _ _ _ _ (by decide) hs,
    get_args_of_finished sampleSigma 5 _ _ _ _ _ _ (by decide) hn, atoi_minus_5]
  constructor
  · rw [validate_pswst_negative _ _ _ (by simp [grab_flags]) dw da dp
      (by show (0 : Int) ≤ default_pswnt; decide) (by show (-5 : Int) < 0; decide)]
    rfl
  · rw [validate_pswnt_negative _ _ _ (by simp [grab_flags]) dw da dp
      (by show (-5 : Int) < 0; decide)]
    rfl

/-! ## C6 and C9: the claims as stated fail -/

/-- C6 (counterexample): `--bogus` alone supplies no `--xml`, the input path is null on entry,
and the failure is the unknown-option one, not the missing-input-file one. -/
theorem C6_counterexample :
    entry0.xml_infile = none ∧ (∀ t ∈ ["dswe", "--bogus"], t ≠ "--xml") ∧
    (get_args sampleSigma (fresh ["dswe", "--bogus"]) stack0 entry0).map
      (fun r => (r.ret, r.msg)) = some (Status.ERROR, some "Unknown option --bogus\n\n") ∧
    some "Unknown option --bogus\n\n" ≠
      some "XML input file is a required command line argument\n\n" := by
  have hscan : get_args_loop 2 (fresh ["dswe", "--bogus"]) stack0 (assign_defaults entry0) =
      some (.returned
        { ret := .ERROR, msg := some "Unknown option --bogus\n\n", usage := true,
          out := assign_defaults entry0,
          getopt := ⟨["dswe"], [], ["--bogus"], [], []⟩ }) := by
    rfl
  refine ⟨rfl, by decide, ?_, by decide⟩
  rw [get_args_of_returned sampleSigma 2 _ _ _ _ (by decide) hscan]
  rfl

/-- C9 (counterexample): in `--xml --help` the element `--help` is taken as the value of
`--xml`, and `get_args` returns `SUCCESS` with the input path "--help". -/
theorem C9_counterexample :
    "--help" ∈ ["dswe", "--xml", "--help"] ∧
    (get_args sampleSigma (fresh ["dswe", "--xml", "--help"]) stack0 entry0).map
      (fun r => (r.ret, r.out.xml_infile)) = some (Status.SUCCESS, some "--help") := by
  refine ⟨by decide, ?_⟩
  rw [get_args_xml_only sampleSigma (by norm_num [sampleSigma]) (by norm_num [sampleSigma])]
  rfl

/-! ## One call of `getopt_long`, by cases -/

theorem process_long_option_cases (g : GetoptData) (l : Locals) (tok : String)
    (body : List Char) :
    (process_long_option g l tok body).c = chr '?' ∨
    ∃ i p, lookup (body.takeWhile (fun c => c ≠ '=')) = .found i p ∧
      ((process_long_option g l tok body).c = 0 ∧ p.flag ≠ none ∨
        (process_long_option g l tok body).c = p.val ∧ p.flag = none) ∧
      (process_long_option g l tok body).l.option_index = i ∧
      ((∃ value, body.dropWhile (fun c => c ≠ '=') = '=' :: value ∧ p.has_arg ≠ 0 ∧
          (process_long_option g l tok body).g.rest = g.rest ∧
          (process_long_option g l tok body).optarg = some (String.mk value)) ∨
       (body.dropWhile (fun c => c ≠ '=') = [] ∧ p.has_arg = 1 ∧
          ∃ v, g.rest = v :: (process_long_option g l tok body).g.rest ∧
            (process_long_option g l tok body).optarg = some v) ∨
       (body.dropWhile (fun c => c ≠ '=') = [] ∧ p.has_arg ≠ 1 ∧
          (process_long_option g l tok body).g.rest = g.rest ∧
          (process_long_option g l tok body).optarg = none)) := by
  unfold process_long_option
  simp only []
  split
  · left; rfl
  · left; rfl
  · rename_i i p hfound
    split
    · rename_i c value hdrop
      have hc : c = '=' := by
        have := List.head_dropWhile_not (fun c => decide (c ≠ '=')) body
        rw [hdrop] at this
        simpa using this
      subst hc
      split
      · rename_i harg
        right
        refine ⟨i, p, hfound, ?_, ?_, Or.inl ⟨value, hdrop, harg, ?_, ?_⟩⟩
        · cases hf : p.flag <;> simp
        · cases hf : p.flag with
            | none => simp
            | some f => cases f <;> simp [Locals.store]
        · cases hf : p.flag <;> simp
        · cases hf : p.flag <;> simp
      · left; rfl
    · rename_i hdrop
      split
      · rename_i harg
        split
        · rename_i v rest hrest
          right
          refine ⟨i, p, hfound, ?_, ?_, Or.inr (Or.inl ⟨hdrop, harg, v, ?_, ?_⟩)⟩
          · cases hf : p.flag <;> simp
          · cases hf : p.flag with
            | none => simp
            | some f => cases f <;> simp [Locals.store]
          · cases hf : p.flag <;> simp [hrest]
          · cases hf : p.flag <;> simp
        · left; rfl
      · rename_i harg
        right
        refine ⟨i, p, hfound, ?_, ?_, Or.inr (Or.inr ⟨hdrop, harg, ?_, ?_⟩)⟩
        · cases hf : p.flag <;> simp
        · cases hf : p.flag with
            | none => simp
            | some f => cases f <;> simp [Locals.store]
        · cases hf : p.flag <;> simp
        · cases hf : p.flag <;> simp

theorem NONOPTION_P_false (t : String) (h : NONOPTION_P t = false) :
    ∃ c cs, t.toList = '-' :: c :: cs := by
  unfold NONOPTION_P at h
  split at h
  · rename_i c cs heq
    exact ⟨c, cs, heq⟩
  · cases h

theorem getopt_long_cases (g : GetoptData) (l : Locals) :
    (getopt_long g l).c = chr '?' ∨
    ((getopt_long g l).c = -1 ∧
      (g.rest.dropWhile NONOPTION_P = [] ∨
        ∃ rest2, g.rest.dropWhile NONOPTION_P = "--" :: rest2)) ∨
    ∃ tok rest2 body, g.rest.dropWhile NONOPTION_P = tok :: rest2 ∧ tok ≠ "--" ∧
      tok.toList = '-' :: '-' :: body ∧
      getopt_long g l =
        process_long_option
          { seen := g.seen ++ g.recent,
            nonopts := g.nonopts ++ g.rest.takeWhile NONOPTION_P,
            recent := [], rest := rest2, nextchar := [] } l tok body := by
  unfold getopt_long
  split
  · left; rfl
  · split
    · rename_i hdrop
      right; left
      exact ⟨rfl, Or.inl hdrop⟩
    · rename_i tok rest hdrop
      split
      · rename_i htok
        right; left
        exact ⟨rfl, Or.inr ⟨rest, by rw [hdrop, htok]⟩⟩
      · rename_i htok
        split
        · rename_i body hbody
          right; right
          exact ⟨tok, rest, body, hdrop, htok, hbody, rfl⟩
        · left; rfl
        · rename_i hlong hshort
          exfalso
          have hnon := List.head_dropWhile_not NONOPTION_P g.rest
          rw [hdrop] at hnon
          obtain ⟨c, cs, hcs⟩ := NONOPTION_P_false tok (by simpa using hnon)
          exact hshort _ c cs hcs

/-! ## The `switch`, by cases -/

theorem switch_c_inr_ret (r : GetoptReturn) (o : Outputs) (res : Result)
    (h : switch_c r o = .inr res) : res.ret = Status.ERROR := by
  unfold switch_c at h
  simp only [] at h
  split_ifs at h
  · split at h
    · split_ifs at h
      cases h; rfl
    · cases h; rfl
  all_goals (cases h; rfl)

theorem switch_c_inl_xml (r : GetoptReturn) (o o1 : Outputs)
    (h : switch_c r o = .inl o1) (hc : r.c ≠ chr 'x') : o1.xml_infile = o.xml_infile := by
  unfold switch_c at h
  simp only [] at h
  split_ifs at h
  · split at h
    · split_ifs at h
      cases h; rfl
    · cases h
  all_goals (cases h; rfl)

theorem switch_c_help (r : GetoptReturn) (o : Outputs) (h : r.c = chr 'h') :
    switch_c r o =
      .inr { ret := .ERROR, msg := none, usage := true, out := o, getopt := r.g } := by
  have h0 : (chr 'h' : Int) = 104 := rfl
  rw [h0] at h
  simp [switch_c, h, chr]

/-! ## C6, amended -/

theorem dropWhile_subset (rest : List String) : ∀ t ∈ rest.dropWhile NONOPTION_P, t ∈ rest :=
  fun _ ht => (List.dropWhile_sublist NONOPTION_P).subset ht

theorem xml_stays_null (fuel : Nat) :
    ∀ (g g1 : GetoptData) (l l1 : Locals) (o o1 : Outputs),
      (∀ t ∈ g.rest, isXmlOption t = false) → o.xml_infile = none →
      get_args_loop fuel g l o = some (.finished g1 l1 o1) → o1.xml_infile = none := by
  induction fuel with
  | zero => intro g g1 l l1 o o1 _ _ h; simp [get_args_loop] at h
  | succ n ih =>
    intro g g1 l l1 o o1 hno hx h
    rw [get_args_loop] at h
    split at h
    · cases h; exact hx
    · rename_i hc
      split at h
      · cases h
      · rename_i o2 hsw
        rcases getopt_long_cases g l with hq | ⟨hm, _⟩ | ⟨tok, rest2, body, hdrop, _, hbody, heq⟩
        · rw [switch_c_unknown _ _ hq] at hsw; cases hsw
        · exact absurd hm hc
        · have htok : isXmlOption tok = false :=
            hno tok (dropWhile_subset _ tok (by rw [hdrop]; exact List.mem_cons_self _ _))
          have hsub : ∀ t ∈ rest2, t ∈ g.rest := fun t ht =>
            dropWhile_subset _ t (by rw [hdrop]; exact List.mem_cons_of_mem _ ht)
          rcases process_long_option_cases
              { seen := g.seen ++ g.recent,
                nonopts := g.nonopts ++ g.rest.takeWhile NONOPTION_P,
                recent := [], rest := rest2, nextchar := [] } l tok body with
            hq | ⟨i, p, hfound, hcp, _, hval⟩
          · rw [← heq] at hq
            rw [switch_c_unknown _ _ hq] at hsw; cases hsw
          · rw [← heq] at hcp hval
            have hpx : p.val ≠ chr 'x' := by
              unfold isXmlOption at htok
              rw [hbody] at htok
              simp only [hfound] at htok
              simpa using htok
            have hcx : (getopt_long g l).c ≠ chr 'x' := by
              rcases hcp with ⟨h0, _⟩ | ⟨hv, _⟩
              · rw [h0]; decide
              · rw [hv]; exact hpx
            have hrest : ∀ t ∈ (getopt_long g l).g.rest, t ∈ g.rest := by
              intro t ht
              rcases hval with ⟨_, _, _, hr, _⟩ | ⟨_, _, v, hr, _⟩ | ⟨_, _, hr, _⟩
              · exact hsub t (by simpa [hr] using ht)
              · exact hsub t (by simp only [] at hr; rw [hr]; exact List.mem_cons_of_mem _ ht)
              · exact hsub t (by simpa [hr] using ht)
            exact ih _ _ _ _ _ _ (fun t ht => hno t (hrest t ht))
              ((switch_c_inl_xml _ _ _ hsw hcx).trans hx) h

/-- C6 (amended): when no element after the program name is the `xml` option (in full,
abbreviated or with `=value`), the input path is null on entry, `argc` is not 1 and the scan
runs to its end, `get_args` fails with the text "XML input file is a required command line
argument", whatever the other options and their values are. -/
theorem C6_missing_xml (MINSIGMA : ℚ) (fuel : Nat) (argv : List String) (g1 : GetoptData)
    (l l1 : Locals) (o o1 : Outputs) (hx : o.xml_infile = none) (hargc : argv.length ≠ 1)
    (hno : ∀ t ∈ argv.drop 1, isXmlOption t = false)
    (hscan : get_args_loop fuel (fresh argv) l (assign_defaults o) = some (.finished g1 l1 o1)) :
    get_args MINSIGMA (fresh argv) l o =
      some (fail "XML input file is a required command line argument\n\n" g1
        (grab_flags l1 o1)) := by
  have h1 : o1.xml_infile = none :=
    xml_stays_null fuel (fresh argv) g1 l l1 (assign_defaults o) o1 hno hx hscan
  rw [get_args_of_finished MINSIGMA fuel (fresh argv) g1 l l1 o o1
    (by rw [argc_fresh]; exact hargc) hscan]
  unfold validate
  rw [if_pos (by simpa [grab_flags] using h1)]

/-- Witness of C6: `--wigt 5 --verbose`, which holds an out-of-range value and no `--xml`. -/
theorem C6_missing_xml_witness :
    (entry0.xml_infile = none ∧ ["dswe", "--wigt", "5", "--verbose"].length ≠ 1 ∧
      (∀ t ∈ ["dswe", "--wigt", "5", "--verbose"].drop 1, isXmlOption t = false) ∧
      get_args_loop 4 (fresh ["dswe", "--wigt", "5", "--verbose"]) stack0
          (assign_defaults entry0) =
        some (.finished ⟨["dswe", "--wigt", "5", "--verbose"], [], [], [], []⟩
          { stack0 with option_index := 10, tmp_verbose_flag := 1 }
          { assign_defaults entry0 with wigt := narrow (atof "5") })) ∧
    get_args sampleSigma (fresh ["dswe", "--wigt", "5", "--verbose"]) stack0 entry0 =
      some (fail "XML input file is a required command line argument\n\n"
        ⟨["dswe", "--wigt", "5", "--verbose"], [], [], [], []⟩
        (grab_flags { stack0 with option_index := 10, tmp_verbose_flag := 1 }
          { assign_defaults entry0 with wigt := narrow (atof "5") })) :=
  ⟨⟨rfl, by decide, by decide, rfl⟩,
   C6_missing_xml sampleSigma 4 ["dswe", "--wigt", "5", "--verbose"]
     ⟨["dswe", "--wigt", "5", "--verbose"], [], [], [], []⟩ stack0
     { stack0 with option_index := 10, tmp_verbose_flag := 1 } entry0
     { assign_defaults entry0 with wigt := narrow (atof "5") } rfl (by decide) (by decide) rfl⟩

/-! ## C9, amended -/

theorem lookup_mem (nm : List Char) (i : Nat) (p : LongOption)
    (h : lookup nm = .found i p) : p ∈ long_options := by
  have hc : ∀ ip ∈ candidates nm, ip.2 ∈ long_options := by
    intro ip hip
    unfold candidates at hip
    have h1 := (List.mem_filter.mp hip).1
    obtain ⟨a, b⟩ := ip
    obtain ⟨hlt, hb⟩ := List.mem_enum h1
    simp only [hb]
    exact List.getElem_mem _
  unfold lookup at h
  split at h
  · rename_i ip hfind
    cases h
    exact hc ip (List.mem_of_find?_eq_some hfind)
  · split at h
    · cases h
    · rename_i ip more hcand
      split_ifs at h
      cases h
      exact hc ip (by rw [hcand]; exact List.mem_cons_self _ _)

theorem long_options_val (p : LongOption) (h : p ∈ long_options) : p.val ≠ -1 ∧ p.val ≠ 0 := by
  simp only [long_options, List.mem_cons, List.mem_singleton, List.not_mem_nil, or_false] at h
  rcases h with h | h | h | h | h | h | h | h | h | h | h | h <;> subst h <;> decide

theorem lookup_help : lookup ['h', 'e', 'l', 'p'] = .found 11 ⟨"help", 0, none, chr 'h'⟩ := by
  rfl

theorem helpAhead_nil : ¬ HelpAhead [] := by
  rintro ⟨pre, post, h, _⟩
  cases pre <;> cases h

theorem helpAhead_dropWhile (rest : List String) (h : HelpAhead rest) :
    HelpAhead (rest.dropWhile NONOPTION_P) := by
  obtain ⟨pre, post, hrest, hdash, hlast⟩ := h
  induction pre generalizing rest with
  | nil =>
    subst hrest
    have hn : NONOPTION_P "--help" = false := by rfl
    rw [List.nil_append, List.dropWhile_cons_of_neg (by simp [hn])]
    exact ⟨[], post, rfl, hdash, hlast⟩
  | cons t pre2 ih =>
    subst hrest
    by_cases hp : NONOPTION_P t = true
    · rw [List.cons_append, List.dropWhile_cons_of_pos hp]
      refine ih _ rfl (fun hmem => hdash (List.mem_cons_of_mem _ hmem)) ?_
      intro u hu
      apply hlast u
      cases pre2 with
      | nil => cases hu
      | cons a as => simpa [List.getLast?_cons_cons] using hu
    · rw [List.cons_append, List.dropWhile_cons_of_neg hp]
      exact ⟨t :: pre2, post, rfl, hdash, hlast⟩

theorem helpAhead_cons (tok : String) (rest2 : List String) (h : HelpAhead (tok :: rest2)) :
    tok ≠ "--" ∧ (tok = "--help" ∨ HelpAhead rest2) := by
  obtain ⟨pre, post, hrest, hdash, hlast⟩ := h
  cases pre with
  | nil =>
    simp only [List.nil_append, List.cons.injEq] at hrest
    rw [hrest.1]
    exact ⟨by decide, Or.inl rfl⟩
  | cons t pre2 =>
    simp only [List.cons_append, List.cons.injEq] at hrest
    obtain ⟨ht, hr⟩ := hrest
    subst ht
    refine ⟨fun heq => hdash (by rw [heq]; exact List.mem_cons_self _ _), Or.inr ?_⟩
    refine ⟨pre2, post, hr, fun hmem => hdash (List.mem_cons_of_mem _ hmem), ?_⟩
    intro u hu
    apply hlast u
    cases pre2 with
    | nil => cases hu
    | cons a as => simpa [List.getLast?_cons_cons] using hu

theorem helpAhead_value (tok v : String) (rest3 : List String)
    (h : HelpAhead (tok :: v :: rest3)) (hw : awaitsValue tok = true) : HelpAhead rest3 := by
  obtain ⟨pre, post, hrest, hdash, hlast⟩ := h
  cases pre with
  | nil =>
    simp only [List.nil_append, List.cons.injEq] at hrest
    rw [hrest.1] at hw
    exact absurd hw (by decide)
  | cons t pre2 =>
    simp only [List.cons_append, List.cons.injEq] at hrest
    obtain ⟨ht, hr⟩ := hrest
    subst ht
    cases pre2 with
    | nil =>
      have := hlast tok rfl
      rw [hw] at this
      cases this
    | cons a pre3 =>
      simp only [List.cons_append, List.cons.injEq] at hr
      refine ⟨pre3, post, hr.2, fun hmem =>
        hdash (List.mem_cons_of_mem _ (List.mem_cons_of_mem _ hmem)), ?_⟩
      intro u hu
      apply hlast u
      cases pre3 with
      | nil => cases hu
      | cons b bs => simpa [List.getLast?_cons_cons] using hu

theorem get_args_loop_returned_ret (fuel : Nat) :
    ∀ (g : GetoptData) (l : Locals) (o : Outputs) (r : Result),
      get_args_loop fuel g l o = some (.returned r) → r.ret = Status.ERROR := by
  induction fuel with
  | zero => intro g l o r h; simp [get_args_loop] at h
  | succ n ih =>
    intro g l o r h
    rw [get_args_loop] at h
    split at h
    · cases h
    · split at h
      · rename_i res hsw
        cases h
        exact switch_c_inr_ret _ _ _ hsw
      · exact ih _ _ _ _ h

theorem help_stops_the_scan (fuel : Nat) :
    ∀ (g g1 : GetoptData) (l l1 : Locals) (o o1 : Outputs), HelpAhead g.rest →
      get_args_loop fuel g l o ≠ some (.finished g1 l1 o1) := by
  induction fuel with
  | zero => intro g g1 l l1 o o1 _ h; simp [get_args_loop] at h
  | succ n ih =>
    intro g g1 l l1 o o1 hahead h
    have hdw := helpAhead_dropWhile _ hahead
    rw [get_args_loop] at h
    rcases getopt_long_cases g l with hq | ⟨_, hnil | ⟨rest2, hdd⟩⟩ |
        ⟨tok, rest2, body, hdrop, _, hbody, heq⟩
    · rw [if_neg (by rw [hq]; decide), switch_c_unknown _ _ hq] at h
      cases h
    · rw [hnil] at hdw
      exact helpAhead_nil hdw
    · rw [hdd] at hdw
      exact (helpAhead_cons _ _ hdw).1 rfl
    · rw [hdrop] at hdw
      rcases process_long_option_cases
          { seen := g.seen ++ g.recent,
            nonopts := g.nonopts ++ g.rest.takeWhile NONOPTION_P,
            recent := [], rest := rest2, nextchar := [] } l tok body with
        hq | ⟨i, p, hfound, hcp, _, hval⟩
      · rw [← heq] at hq
        rw [if_neg (by rw [hq]; decide), switch_c_unknown _ _ hq] at h
        cases h
      · rw [← heq] at hcp hval
        have hpv := long_options_val p (lookup_mem _ _ _ hfound)
        have hc1 : (getopt_long g l).c ≠ -1 := by
          rcases hcp with ⟨h0, _⟩ | ⟨hv, _⟩
          · rw [h0]; decide
          · rw [hv]; exact hpv.1
        rw [if_neg hc1] at h
        split at h
        · cases h
        · rename_i o2 hsw
          rcases (helpAhead_cons _ _ hdw).2 with hhelp | hrest2
          · -- the option met is `--help` itself
            subst hhelp
            have hb : body = ['h', 'e', 'l', 'p'] := by
              have h2 : "--help".toList = ['-', '-', 'h', 'e', 'l', 'p'] := rfl
              rw [h2] at hbody
              simp only [List.cons.injEq, true_and] at hbody
              exact hbody.symm
            subst hb
            have hl : lookup (List.takeWhile (fun c => decide (c ≠ '=')) ['h', 'e', 'l', 'p']) =
                .found 11 ⟨"help", 0, none, chr 'h'⟩ := by rfl
            rw [hl] at hfound
            cases hfound
            rcases hcp with ⟨_, hf⟩ | ⟨hv, _⟩
            · exact absurd rfl hf
            · rw [switch_c_help _ _ hv] at hsw
              cases hsw
          · rcases hval with ⟨_, _, _, hr, _⟩ | ⟨hd0, harg, v, hr, _⟩ | ⟨_, _, hr, _⟩
            · simp only [] at hr
              exact ih _ _ _ _ _ _ (by rw [hr]; exact hrest2) h
            · simp only [] at hr
              have hw : awaitsValue tok = true := by
                unfold awaitsValue
                rw [hbody]
                simp only [hd0, hfound, harg]
                rfl
              rw [hr] at hdw
              exact ih _ _ _ _ _ _ (helpAhead_value _ _ _ hdw hw) h
            · simp only [] at hr
              exact ih _ _ _ _ _ _ (by rw [hr]; exact hrest2) h

/-- C9 (amended): when the argument list holds `--help` at a place where the scan meets it as
an option, that is, no element before it is the terminator `--` and the element right before
it is not a value option waiting for its value, `get_args` returns `ERROR`, whatever the other
elements before and after it are. -/
theorem C9_help_met_is_error (MINSIGMA : ℚ) (prog : String) (pre post : List String)
    (l : Locals) (o : Outputs) (hdash : "--" ∉ pre)
    (hlast : ∀ t, pre.getLast? = some t → awaitsValue t = false) :
    ∃ r, get_args MINSIGMA (fresh (prog :: pre ++ "--help" :: post)) l o = some r ∧
      r.ret = Status.ERROR := by
  obtain ⟨r, hr⟩ := get_args_returns MINSIGMA (fresh (prog :: pre ++ "--help" :: post)) l o
  refine ⟨r, hr, ?_⟩
  have hahead : HelpAhead (fresh (prog :: pre ++ "--help" :: post)).rest :=
    ⟨pre, post, rfl, hdash, hlast⟩
  unfold get_args at hr
  rw [if_neg (by rw [argc_fresh]; simp)] at hr
  split at hr
  · cases hr
  · rename_i r2 hloop
    cases hr
    exact get_args_loop_returned_ret _ _ _ _ _ hloop
  · rename_i g1 l1 o1 hloop
    exact absurd hloop (help_stops_the_scan _ _ _ _ _ _ _ hahead)

/-- Witness of C9: `--xml scene.xml --wigt 0.02 --help --bogus`. -/
theorem C9_help_met_is_error_witness :
    ("--" ∉ ["--xml", "scene.xml", "--wigt", "0.02"] ∧
      ∀ t, ["--xml", "scene.xml", "--wigt", "0.02"].getLast? = some t →
        awaitsValue t = false) ∧
    ∃ r, get_args sampleSigma
          (fresh ("dswe" :: ["--xml", "scene.xml", "--wigt", "0.02"] ++ "--help" :: ["--bogus"]))
          stack0 entry0 = some r ∧
      r.ret = Status.ERROR :=
  ⟨⟨by decide, by intro t ht; cases ht; decide⟩,
   C9_help_met_is_error sampleSigma "dswe" ["--xml", "scene.xml", "--wigt", "0.02"] ["--bogus"]
     stack0 entry0 (by decide) (by intro t ht; cases ht; decide)⟩

/-! ## C11 -/

theorem get_args_xml_empty :
    get_args sampleSigma (fresh ["dswe", "--xml="]) stack0 entry0 =
      some { ret := .SUCCESS, msg := none, usage := false,
             out := grab_flags { stack0 with option_index := 3 }
               { assign_defaults entry0 with xml_infile := some "" },
             getopt := ⟨["dswe", "--xml="], [], [], [], []⟩ } := by
  obtain ⟨dw, da, dp, ds⟩ :=
    defaults_pass sampleSigma (by norm_num [sampleSigma]) (by norm_num [sampleSigma])
  exact get_args_success_of_finished sampleSigma 2 _ ⟨["dswe", "--xml="], [], [], [], []⟩ stack0
    { stack0 with option_index := 3 } entry0 { assign_defaults entry0 with xml_infile := some "" }
    (by decide) rfl (by simp) dw da dp (by show (0 : Int) ≤ default_pswnt; decide)
    (by show (0 : Int) ≤ default_pswst; decide) ds

/-- C11 (counterexample): `--xml=` hands the empty string to `strdup`, the pointer is not
null, and `get_args` returns `SUCCESS` with an empty input path. -/
theorem C11_counterexample :
    (get_args sampleSigma (fresh ["dswe", "--xml="]) stack0 entry0).map
      (fun r => (r.ret, r.out.xml_infile)) = some (Status.SUCCESS, some "") := by
  rw [get_args_xml_empty]
  rfl

/-- C11 (amended): whenever `get_args` returns `SUCCESS`, the pointer `*xml_infile` is not
null; nothing more is checked, so the path it points to may be the empty string. -/
theorem C11_success_has_path (MINSIGMA : ℚ) (g : GetoptData) (l : Locals) (o : Outputs)
    (r : Result) (h : get_args MINSIGMA g l o = some r) (hret : r.ret = Status.SUCCESS) :
    r.out.xml_infile ≠ none := by
  unfold get_args at h
  split_ifs at h
  · cases h; cases hret
  · split at h
    · cases h
    · rename_i r2 hloop
      cases h
      rw [get_args_loop_returned_ret _ _ _ _ _ hloop] at hret
      cases hret
    · rename_i g1 l1 o1 hloop
      cases h
      rcases validate_cases MINSIGMA g1 (grab_flags l1 o1) with he | ⟨hx, _⟩
      · rw [he] at hret; cases hret
      · rw [validate_out]; exact hx

/-- Witness of C11: `--xml=` itself, where the path is present and empty. -/
theorem C11_success_has_path_witness :
    (get_args sampleSigma (fresh ["dswe", "--xml="]) stack0 entry0 =
        some { ret := .SUCCESS, msg := none, usage := false,
               out := grab_flags { stack0 with option_index := 3 }
                 { assign_defaults entry0 with xml_infile := some "" },
               getopt := ⟨["dswe", "--xml="], [], [], [], []⟩ } ∧
      Status.SUCCESS = Status.SUCCESS) ∧
    (grab_flags { stack0 with option_index := 3 }
      { assign_defaults entry0 with xml_infile := some "" }).xml_infile ≠ none :=
  ⟨⟨get_args_xml_empty, rfl⟩,
    C11_success_has_path sampleSigma (fresh ["dswe", "--xml="]) stack0 entry0 _
      get_args_xml_empty rfl⟩

/-! ## C13 -/

theorem process_long_option_locals (g : GetoptData) (l l2 : Locals) (tok : String)
    (body : List Char) :
    (process_long_option g l tok body).c = (process_long_option g l2 tok body).c ∧
    (process_long_option g l tok body).optarg = (process_long_option g l2 tok body).optarg ∧
    (process_long_option g l tok body).g = (process_long_option g l2 tok body).g ∧
    ((process_long_option g l tok body).c = 0 →
      (process_long_option g l tok body).l.option_index =
        (process_long_option g l2 tok body).l.option_index) := by
  have hq : chr '?' ≠ 0 := by decide
  unfold process_long_option
  simp only []
  split
  · exact ⟨rfl, rfl, rfl, fun h => absurd h hq⟩
  · exact ⟨rfl, rfl, rfl, fun h => absurd h hq⟩
  · rename_i i p hfound
    have hstore : ∀ (k : Locals) (f : FlagVar) (v : Int),
        (k.store f v).option_index = k.option_index := by
      intro k f v; cases f <;> rfl
    split
    · split
      · cases hf : p.flag <;> simp [hstore]
      · exact ⟨rfl, rfl, rfl, fun h => absurd h hq⟩
    · split
      · split
        · cases hf : p.flag <;> simp [hstore]
        · exact ⟨rfl, rfl, rfl, fun h => absurd h hq⟩
      · cases hf : p.flag <;> simp [hstore]

theorem getopt_long_locals (g : GetoptData) (l l2 : Locals) :
    (getopt_long g l).c = (getopt_long g l2).c ∧
    (getopt_long g l).optarg = (getopt_long g l2).optarg ∧
    (getopt_long g l).g = (getopt_long g l2).g ∧
    ((getopt_long g l).c = 0 →
      (getopt_long g l).l.option_index = (getopt_long g l2).l.option_index) := by
  have hq : chr '?' ≠ 0 := by decide
  have hm : (-1 : Int) ≠ 0 := by decide
  unfold getopt_long
  split
  · exact ⟨rfl, rfl, rfl, fun h => absurd h hq⟩
  · split
    · exact ⟨rfl, rfl, rfl, fun h => absurd h hm⟩
    · split
      · exact ⟨rfl, rfl, rfl, fun h => absurd h hm⟩
      · split
        · exact process_long_option_locals _ _ _ _ _
        · exact ⟨rfl, rfl, rfl, fun h => absurd h hq⟩
        · exact ⟨rfl, rfl, rfl, fun h => absurd h hm⟩

theorem switch_c_core (r r2 : GetoptReturn) (o o2 : Outputs) (hc : r.c = r2.c)
    (ha : r.optarg = r2.optarg) (hg : r.g = r2.g)
    (hi : r.c = 0 → r.l.option_index = r2.l.option_index) (ho : o.parsed = o2.parsed) :
    Sum.map Outputs.parsed Result.core (switch_c r o) =
      Sum.map Outputs.parsed Result.core (switch_c r2 o2) := by
  obtain ⟨c, optarg, g, l⟩ := r
  obtain ⟨c2, optarg2, g2, l2⟩ := r2
  simp only [] at hc ha hg hi
  subst hc ha hg
  simp only [Outputs.parsed, Prod.mk.injEq] at ho
  obtain ⟨h1, h2, h3, h4, h5, h6, h7⟩ := ho
  unfold switch_c
  simp only []
  by_cases h0 : c = 0
  · rw [if_pos h0, if_pos h0, hi h0]
    split
    · split_ifs <;> simp [Result.core, Outputs.parsed, *]
    · simp [Result.core, Outputs.parsed, *]
  · rw [if_neg h0, if_neg h0]
    split_ifs <;> simp [Result.core, Outputs.parsed, *]

theorem get_args_loop_core (fuel : Nat) :
    ∀ (g : GetoptData) (l l2 : Locals) (o o2 : Outputs), o.parsed = o2.parsed →
      (get_args_loop fuel g l o).map LoopEnd.core =
        (get_args_loop fuel g l2 o2).map LoopEnd.core := by
  induction fuel with
  | zero => intro g l l2 o o2 _; rfl
  | succ n ih =>
    intro g l l2 o o2 ho
    obtain ⟨hc, ha, hg, hi⟩ := getopt_long_locals g l l2
    have hsw := switch_c_core _ _ o o2 hc ha hg hi ho
    rw [get_args_loop, get_args_loop]
    by_cases hm : (getopt_long g l).c = -1
    · rw [if_pos hm, if_pos (hc ▸ hm)]
      simp [LoopEnd.core, hg, ho]
    · rw [if_neg hm, if_neg (hc ▸ hm)]
      cases h1 : switch_c (getopt_long g l) o with
      | inr res =>
        cases h2 : switch_c (getopt_long g l2) o2 with
        | inr res2 =>
          rw [h1, h2] at hsw
          simpa [LoopEnd.core] using hsw
        | inl o3 => rw [h1, h2] at hsw; cases hsw
      | inl o1 =>
        cases h2 : switch_c (getopt_long g l2) o2 with
        | inr res2 => rw [h1, h2] at hsw; cases hsw
        | inl o3 =>
          rw [h1, h2] at hsw
          simp only [Sum.map_inl, Sum.inl.injEq] at hsw
          simp only []
          rw [hg]
          exact ih _ _ _ _ _ hsw

theorem validate_core (MINSIGMA : ℚ) (g : GetoptData) (o o2 : Outputs)
    (ho : o.parsed = o2.parsed) :
    (validate MINSIGMA g o).core = (validate MINSIGMA g o2).core := by
  obtain ⟨x, f1, f2, f3, w, a, p, s, n, t, f4⟩ := o
  obtain ⟨x2, e1, e2, e3, w2, a2, p2, s2, n2, t2, e4⟩ := o2
  simp only [Outputs.parsed, Prod.mk.injEq] at ho
  obtain ⟨h1, h2, h3, h4, h5, h6, h7⟩ := ho
  subst h1 h2 h3 h4 h5 h6 h7
  unfold validate
  simp only []
  split_ifs <;> rfl

/-- C13 (amended): with `argc` other than 1, the return code, the diagnostic, the input path,
the six numeric outputs and the state `getopt_long` is left in are decided by the arguments,
the state of `getopt_long` on entry and the entry value of `*xml_infile` alone: two calls that
agree on these give the same, whatever the stack and the other output locations hold. -/
theorem C13_decided_by_arguments (MINSIGMA : ℚ) (g : GetoptData) (l l2 : Locals)
    (o o2 : Outputs) (hargc : g.argc ≠ 1) (hx : o.xml_infile = o2.xml_infile) :
    (get_args MINSIGMA g l o).map Result.core = (get_args MINSIGMA g l2 o2).map Result.core := by
  have hd : (assign_defaults o).parsed = (assign_defaults o2).parsed := by
    simp [assign_defaults, Outputs.parsed, hx]
  have hloop := get_args_loop_core (g.rest.length + 1) g l l2 _ _ hd
  unfold get_args
  rw [if_neg hargc, if_neg hargc]
  cases h1 : get_args_loop (g.rest.length + 1) g l (assign_defaults o) with
  | none =>
    cases h2 : get_args_loop (g.rest.length + 1) g l2 (assign_defaults o2) with
    | none => rfl
    | some e2 => rw [h1, h2] at hloop; cases hloop
  | some e1 =>
    cases h2 : get_args_loop (g.rest.length + 1) g l2 (assign_defaults o2) with
    | none => rw [h1, h2] at hloop; cases hloop
    | some e2 =>
      rw [h1, h2] at hloop
      simp only [Option.map_some', Option.some.injEq] at hloop
      cases e1 with
      | returned r =>
        cases e2 with
        | returned r2 => simpa [LoopEnd.core] using hloop
        | finished g2 k2 q2 => cases hloop
      | finished g1 k1 q1 =>
        cases e2 with
        | returned r2 => cases hloop
        | finished g2 k2 q2 =>
          simp only [LoopEnd.core, Sum.inl.injEq, Prod.mk.injEq] at hloop
          obtain ⟨hg, hq⟩ := hloop
          subst hg
          simp only [Option.map_some', Option.some.injEq]
          exact validate_core MINSIGMA g1 _ _ hq

/-- Witness of C13: `--xml scene.xml --verbose` from two stacks and two sets of entry values
that agree on the null input path only. -/
theorem C13_decided_by_arguments_witness :
    ((fresh ["dswe", "--xml", "scene.xml", "--verbose"]).argc ≠ 1 ∧
      entry0.xml_infile =
        ({ entry0 with wigt := .fin 7, use_toa_flag := true } : Outputs).xml_infile) ∧
    (get_args sampleSigma (fresh ["dswe", "--xml", "scene.xml", "--verbose"]) stack0
        entry0).map Result.core =
      (get_args sampleSigma (fresh ["dswe", "--xml", "scene.xml", "--verbose"])
        { stack0 with option_index := 5, tmp_toa_flag := 1 }
        { entry0 with wigt := .fin 7, use_toa_flag := true }).map Result.core :=
  ⟨⟨by decide, rfl⟩,
   C13_decided_by_arguments sampleSigma (fresh ["dswe", "--xml", "scene.xml", "--verbose"])
     stack0 { stack0 with option_index := 5, tmp_toa_flag := 1 } entry0
     { entry0 with wigt := .fin 7, use_toa_flag := true } (by decide) rfl⟩

/-- C13 (counterexample): a first call on `--xml scene.xml` returns `SUCCESS` and leaves
`getopt_long` at the end of `argv`; a second call with the same arguments and the same entry
values, made from that state, reads no option and returns `ERROR` for a missing input file. -/
theorem C13_counterexample :
    (get_args sampleSigma (fresh ["dswe", "--xml", "scene.xml"]) stack0 entry0).map
        (fun r => (r.ret, r.getopt)) =
      some (Status.SUCCESS, ⟨["dswe", "--xml", "scene.xml"], [], [], [], []⟩) ∧
    (get_args sampleSigma ⟨["dswe", "--xml", "scene.xml"], [], [], [], []⟩ stack0 entry0).map
        (fun r => (r.ret, r.msg)) =
      some (Status.ERROR, some "XML input file is a required command line argument\n\n") := by
  constructor
  · rw [get_args_xml_only sampleSigma (by norm_num [sampleSigma]) (by norm_num [sampleSigma])]
    rfl
  · have hscan : get_args_loop 1 ⟨["dswe", "--xml", "scene.xml"], [], [], [], []⟩ stack0
        (assign_defaults entry0) =
        some (.finished ⟨["dswe", "--xml", "scene.xml"], [], [], [], []⟩ stack0
          (assign_defaults entry0)) := by
      rfl
    rw [get_args_of_finished sampleSigma 1 _ _ _ _ _ _ (by decide) hscan]
    unfold validate
    rw [if_pos (by rfl)]
    rfl

/-! ## What the scan stores -/

theorem switch_c_inr_out (r : GetoptReturn) (o : Outputs) (res : Result)
    (h : switch_c r o = .inr res) : res.out = o := by
  unfold switch_c at h
  simp only [] at h
  split_ifs at h
  · split at h
    · split_ifs at h
      cases h; rfl
    · cases h; rfl
  all_goals (cases h; rfl)

theorem switch_c_inl_flags (r : GetoptReturn) (o o1 : Outputs)
    (h : switch_c r o = .inl o1) :
    o1.use_ledaps_mask_flag = o.use_ledaps_mask_flag ∧
      o1.use_zeven_thorne_flag = o.use_zeven_thorne_flag ∧
      o1.use_toa_flag = o.use_toa_flag ∧ o1.verbose_flag = o.verbose_flag := by
  unfold switch_c at h
  simp only [] at h
  split_ifs at h
  · split at h
    · split_ifs at h
      cases h; exact ⟨rfl, rfl, rfl, rfl⟩
    · cases h
  all_goals (cases h; exact ⟨rfl, rfl, rfl, rfl⟩)

theorem get_args_loop_returned_flags (fuel : Nat) :
    ∀ (g : GetoptData) (l : Locals) (o : Outputs) (r : Result),
      get_args_loop fuel g l o = some (.returned r) →
      r.out.use_ledaps_mask_flag = o.use_ledaps_mask_flag ∧
        r.out.use_zeven_thorne_flag = o.use_zeven_thorne_flag ∧
        r.out.use_toa_flag = o.use_toa_flag ∧ r.out.verbose_flag = o.verbose_flag := by
  induction fuel with
  | zero => intro g l o r h; simp [get_args_loop] at h
  | succ n ih =>
    intro g l o r h
    rw [get_args_loop] at h
    split at h
    · cases h
    · split at h
      · rename_i res hsw
        cases h
        rw [switch_c_inr_out _ _ _ hsw]
        exact ⟨rfl, rfl, rfl, rfl⟩
      · rename_i o2 hsw
        obtain ⟨h1, h2, h3, h4⟩ := ih _ _ _ _ h
        obtain ⟨k1, k2, k3, k4⟩ := switch_c_inl_flags _ _ _ hsw
        exact ⟨h1.trans k1, h2.trans k2, h3.trans k3, h4.trans k4⟩

theorem lastOptarg_nil (c : Int) : lastOptarg c [] = none := rfl

theorem lastOptarg_cons (c : Int) (x : Int × Option String)
    (tr : List (Int × Option String)) :
    lastOptarg c (x :: tr) =
      match lastOptarg c tr with
      | some a => some a
      | none => if x.1 = c then some x.2 else none := by
  unfold lastOptarg
  by_cases hx : x.1 = c
  · rw [List.filter_cons_of_pos (by simpa using hx), List.getLast?_cons]
    cases h : (tr.filter (fun x => decide (x.1 = c))).getLast? <;> simp [hx]
  · rw [List.filter_cons_of_neg (by simpa using hx)]
    cases h : (tr.filter (fun x => decide (x.1 = c))).getLast? <;> simp [hx]

theorem last_occurrence_decides {α : Type} (f : Outputs → α) (u : Option String → α)
    (c : Int)
    (H : ∀ (r : GetoptReturn) (o o1 : Outputs), switch_c r o = .inl o1 →
      f o1 = if r.c = c then u r.optarg else f o)
    (fuel : Nat) :
    ∀ (g g1 : GetoptData) (l l1 : Locals) (o o1 : Outputs),
      get_args_loop fuel g l o = some (.finished g1 l1 o1) →
      f o1 = ((lastOptarg c (options_met fuel g l)).map u).getD (f o) := by
  induction fuel with
  | zero => intro g g1 l l1 o o1 h; simp [get_args_loop] at h
  | succ n ih =>
    intro g g1 l l1 o o1 h
    rw [get_args_loop] at h
    rw [options_met]
    split at h
    · rename_i hc
      cases h
      simp only [hc, if_true, lastOptarg_nil]
      rfl
    · rename_i hc
      simp only [hc, if_false]
      split at h
      · cases h
      · rename_i o2 hsw
        have h1 := ih _ _ _ _ _ _ h
        have h2 := H _ _ _ hsw
        rw [lastOptarg_cons, h1, h2]
        cases hl : lastOptarg c (options_met n (getopt_long g l).g (getopt_long g l).l) with
        | some a => rfl
        | none =>
          simp only []
          split_ifs <;> rfl

theorem switch_c_inl_fields (r : GetoptReturn) (o o1 : Outputs)
    (h : switch_c r o = .inl o1) :
    o1.xml_infile = (if r.c = chr 'x' then r.optarg else o.xml_infile) ∧
    o1.wigt = (if r.c = chr 'w' then narrow (atof (r.optarg.getD "")) else o.wigt) ∧
    o1.awgt = (if r.c = chr 'a' then narrow (atof (r.optarg.getD "")) else o.awgt) ∧
    o1.pswt = (if r.c = chr 'p' then narrow (atof (r.optarg.getD "")) else o.pswt) ∧
    o1.pswnt = (if r.c = chr 'n' then atoi (r.optarg.getD "") else o.pswnt) ∧
    o1.pswst = (if r.c = chr 'r' then atoi (r.optarg.getD "") else o.pswst) ∧
    o1.percent_slope =
      (if r.c = chr 's' then narrow (atof (r.optarg.getD "")) else o.percent_slope) := by
  have hh : chr 'h' = 104 := rfl
  have hx : chr 'x' = 120 := rfl
  have hw : chr 'w' = 119 := rfl
  have ha : chr 'a' = 97 := rfl
  have hp : chr 'p' = 112 := rfl
  have hn : chr 'n' = 110 := rfl
  have hr : chr 'r' = 114 := rfl
  have hs : chr 's' = 115 := rfl
  unfold switch_c at h
  simp only [hh, hx, hw, ha, hp, hn, hr, hs] at h ⊢
  split_ifs at h with c0 c1 c2 c3 c4 c5 c6 c7 c8
  · split at h
    · split_ifs at h
      cases h
      simp [c0]
    · cases h
  all_goals (cases h; simp [*])

theorem switch_c_isLeft_const (r : GetoptReturn) :
    ∃ b, ∀ o : Outputs, (switch_c r o).isLeft = b := by
  unfold switch_c
  by_cases h0 : r.c = 0
  · cases hp : long_options.get? r.l.option_index with
    | none => exact ⟨false, fun o => by simp [h0]⟩
    | some p =>
      by_cases hf : p.flag = none
      · exact ⟨false, fun o => by simp [h0, hf]⟩
      · exact ⟨true, fun o => by simp [h0, hf]⟩
  · by_cases h1 : r.c = chr 'h'
    · refine ⟨false, fun o => ?_⟩
      simp only [if_neg h0, if_pos h1]
      rfl
    · by_cases h2 : r.c = chr 'x'
      · refine ⟨true, fun o => ?_⟩
        simp only [if_neg h0, if_neg h1, if_pos h2]
        rfl
      · by_cases h3 : r.c = chr 'w'
        · refine ⟨true, fun o => ?_⟩
          simp only [if_neg h0, if_neg h1, if_neg h2, if_pos h3]
          rfl
        · by_cases h4 : r.c = chr 'a'
          · refine ⟨true, fun o => ?_⟩
            simp only [if_neg h0, if_neg h1, if_neg h2, if_neg h3, if_pos h4]
            rfl
          · by_cases h5 : r.c = chr 'p'
            · refine ⟨true, fun o => ?_⟩
              simp only [if_neg h0, if_neg h1, if_neg h2, if_neg h3, if_neg h4, if_pos h5]
              rfl
            · by_cases h6 : r.c = chr 'n'
              · refine ⟨true, fun o => ?_⟩
                simp only [if_neg h0, if_neg h1, if_neg h2, if_neg h3, if_neg h4, if_neg h5,
                  if_pos h6]
                rfl
              · by_cases h7 : r.c = chr 'r'
                · refine ⟨true, fun o => ?_⟩
                  simp only [if_neg h0, if_neg h1, if_neg h2, if_neg h3, if_neg h4, if_neg h5,
                    if_neg h6, if_pos h7]
                  rfl
                · by_cases h8 : r.c = chr 's'
                  · refine ⟨true, fun o => ?_⟩
                    simp only [if_neg h0, if_neg h1, if_neg h2, if_neg h3, if_neg h4, if_neg h5,
                      if_neg h6, if_neg h7, if_pos h8]
                    rfl
                  · refine ⟨false, fun o => ?_⟩
                    simp only [if_neg h0, if_neg h1, if_neg h2, if_neg h3, if_neg h4, if_neg h5,
                      if_neg h6, if_neg h7, if_neg h8]
                    rfl

theorem switch_c_isLeft (r : GetoptReturn) (o o2 : Outputs) :
    (switch_c r o).isLeft = (switch_c r o2).isLeft := by
  obtain ⟨b, hb⟩ := switch_c_isLeft_const r
  rw [hb o, hb o2]

theorem options_stored_inr (n : Nat) (g : GetoptData) (l : Locals) (o : Outputs) (res : Result)
    (hc : (getopt_long g l).c ≠ -1) (hsw : switch_c (getopt_long g l) o = .inr res) :
    options_stored (n + 1) g l = [] := by
  have h := switch_c_isLeft (getopt_long g l) entry0 o
  rw [hsw] at h
  rw [options_stored]
  simp only [hc, if_false]
  cases h2 : switch_c (getopt_long g l) entry0 with
  | inr _ => rfl
  | inl _ => rw [h2] at h; cases h

theorem options_stored_inl (n : Nat) (g : GetoptData) (l : Locals) (o o1 : Outputs)
    (hc : (getopt_long g l).c ≠ -1) (hsw : switch_c (getopt_long g l) o = .inl o1) :
    options_stored (n + 1) g l =
      ((getopt_long g l).c, (getopt_long g l).optarg) ::
        options_stored n (getopt_long g l).g (getopt_long g l).l := by
  have h := switch_c_isLeft (getopt_long g l) entry0 o
  rw [hsw] at h
  rw [options_stored]
  simp only [hc, if_false]
  cases h2 : switch_c (getopt_long g l) entry0 with
  | inr _ => rw [h2] at h; cases h
  | inl _ => rfl

/-- Whichever way the option loop ends, a field that only the option `c` assigns holds the
conversion of the `optarg` of the last stored occurrence of `c`, or else what it held before
the loop. -/
theorem stored_decides {α : Type} (f : Outputs → α) (u : Option String → α) (c : Int)
    (H : ∀ (r : GetoptReturn) (o o1 : Outputs), switch_c r o = .inl o1 →
      f o1 = if r.c = c then u r.optarg else f o)
    (fuel : Nat) :
    ∀ (g : GetoptData) (l : Locals) (o : Outputs) (e : LoopEnd),
      get_args_loop fuel g l o = some e →
      f e.out = ((lastOptarg c (options_stored fuel g l)).map u).getD (f o) := by
  induction fuel with
  | zero => intro g l o e h; simp [get_args_loop] at h
  | succ n ih =>
    intro g l o e h
    rw [get_args_loop] at h
    split at h
    · rename_i hc
      cases h
      rw [options_stored]
      simp only [hc, if_true, lastOptarg_nil]
      rfl
    · rename_i hc
      split at h
      · rename_i res hsw
        cases h
        rw [options_stored_inr n g l o res hc hsw, lastOptarg_nil]
        show f res.out = f o
        rw [switch_c_inr_out _ _ _ hsw]
      · rename_i o2 hsw
        have h1 := ih _ _ _ _ h
        have h2 := H _ _ _ hsw
        rw [options_stored_inl n g l o o2 hc hsw, lastOptarg_cons, h1, h2]
        cases hl : lastOptarg c (options_stored n (getopt_long g l).g (getopt_long g l).l) with
        | some a => rfl
        | none =>
          simp only []
          split_ifs <;> rfl

/-- C16: when the scan runs to its end, `get_args` validates outputs in which the input path
and each numeric field come from the last option of that kind that `getopt_long` reported
(the entry value of the path and the default of the field when there is none); earlier
occurrences leave no trace. -/
theorem C16_last_occurrence_wins (MINSIGMA : ℚ) (fuel : Nat) (g g1 : GetoptData)
    (l l1 : Locals) (o o1 : Outputs) (hargc : g.argc ≠ 1)
    (hscan : get_args_loop fuel g l (assign_defaults o) = some (.finished g1 l1 o1)) :
    get_args MINSIGMA g l o = some (validate MINSIGMA g1 (grab_flags l1 o1)) ∧
    o1.xml_infile = (lastOptarg (chr 'x') (options_met fuel g l)).getD o.xml_infile ∧
    o1.wigt = ((lastOptarg (chr 'w') (options_met fuel g l)).map
      (fun a => narrow (atof (a.getD "")))).getD default_wigt ∧
    o1.awgt = ((lastOptarg (chr 'a') (options_met fuel g l)).map
      (fun a => narrow (atof (a.getD "")))).getD default_awgt ∧
    o1.pswt = ((lastOptarg (chr 'p') (options_met fuel g l)).map
      (fun a => narrow (atof (a.getD "")))).getD default_pswt ∧
    o1.pswnt = ((lastOptarg (chr 'n') (options_met fuel g l)).map
      (fun a => atoi (a.getD ""))).getD default_pswnt ∧
    o1.pswst = ((lastOptarg (chr 'r') (options_met fuel g l)).map
      (fun a => atoi (a.getD ""))).getD default_pswst ∧
    o1.percent_slope = ((lastOptarg (chr 's') (options_met fuel g l)).map
      (fun a => narrow (atof (a.getD "")))).getD default_percent_slope := by
  refine ⟨get_args_of_finished MINSIGMA fuel g g1 l l1 o o1 hargc hscan, ?_, ?_, ?_, ?_, ?_,
    ?_, ?_⟩
  · have h := last_occurrence_decides (fun q => q.xml_infile) (fun a => a) (chr 'x')
      (fun r q q1 hsw => (switch_c_inl_fields r q q1 hsw).1) fuel _ _ _ _ _ _ hscan
    simpa using h
  · exact last_occurrence_decides (fun q => q.wigt) (fun a => narrow (atof (a.getD ""))) (chr 'w')
      (fun r q q1 hsw => (switch_c_inl_fields r q q1 hsw).2.1) fuel _ _ _ _ _ _ hscan
  · exact last_occurrence_decides (fun q => q.awgt) (fun a => narrow (atof (a.getD ""))) (chr 'a')
      (fun r q q1 hsw => (switch_c_inl_fields r q q1 hsw).2.2.1) fuel _ _ _ _ _ _ hscan
  · exact last_occurrence_decides (fun q => q.pswt) (fun a => narrow (atof (a.getD ""))) (chr 'p')
      (fun r q q1 hsw => (switch_c_inl_fields r q q1 hsw).2.2.2.1) fuel _ _ _ _ _ _ hscan
  · exact last_occurrence_decides (fun q => q.pswnt) (fun a => atoi (a.getD "")) (chr 'n')
      (fun r q q1 hsw => (switch_c_inl_fields r q q1 hsw).2.2.2.2.1) fuel _ _ _ _ _ _ hscan
  · exact last_occurrence_decides (fun q => q.pswst) (fun a => atoi (a.getD "")) (chr 'r')
      (fun r q q1 hsw => (switch_c_inl_fields r q q1 hsw).2.2.2.2.2.1) fuel _ _ _ _ _ _ hscan
  · exact last_occurrence_decides (fun q => q.percent_slope) (fun a => narrow (atof (a.getD "")))
      (chr 's') (fun r q q1 hsw => (switch_c_inl_fields r q q1 hsw).2.2.2.2.2.2) fuel _ _ _ _ _ _
      hscan

/-- Witness of C16: in `--xml scene.xml --wigt 5 --wigt 0.5` the first value of `--wigt` is out
of range and the second is not; the field is 0.5 and the call succeeds. -/
theorem C16_last_occurrence_wins_witness :
    ((fresh ["dswe", "--xml", "scene.xml", "--wigt", "5", "--wigt", "0.5"]).argc ≠ 1 ∧
      get_args_loop 7 (fresh ["dswe", "--xml", "scene.xml", "--wigt", "5", "--wigt", "0.5"])
          stack0 (assign_defaults entry0) =
        some (.finished
          ⟨["dswe", "--xml", "scene.xml", "--wigt", "5", "--wigt", "0.5"], [], [], [], []⟩
          { stack0 with option_index := 4 }
          { assign_defaults entry0 with
            xml_infile := some "scene.xml", wigt := narrow (atof "0.5") })) ∧
    (get_args sampleSigma
        (fresh ["dswe", "--xml", "scene.xml", "--wigt", "5", "--wigt", "0.5"]) stack0 entry0 =
      some (validate sampleSigma
        ⟨["dswe", "--xml", "scene.xml", "--wigt", "5", "--wigt", "0.5"], [], [], [], []⟩
        (grab_flags { stack0 with option_index := 4 }
          { assign_defaults entry0 with
            xml_infile := some "scene.xml", wigt := narrow (atof "0.5") }))) ∧
    lastOptarg (chr 'w')
        (options_met 7 (fresh ["dswe", "--xml", "scene.xml", "--wigt", "5", "--wigt", "0.5"])
          stack0) = some (some "0.5") ∧
    narrow (atof "0.5") = .fin (1 / 2) ∧
    (validate sampleSigma
        ⟨["dswe", "--xml", "scene.xml", "--wigt", "5", "--wigt", "0.5"], [], [], [], []⟩
        (grab_flags { stack0 with option_index := 4 }
          { assign_defaults entry0 with
            xml_infile := some "scene.xml", wigt := narrow (atof "0.5") })).ret =
      Status.SUCCESS := by
  obtain ⟨_, da, dp, ds⟩ :=
    defaults_pass sampleSigma (by norm_num [sampleSigma]) (by norm_num [sampleSigma])
  refine ⟨⟨by decide, rfl⟩,
    (C16_last_occurrence_wins sampleSigma 7
      (fresh ["dswe", "--xml", "scene.xml", "--wigt", "5", "--wigt", "0.5"])
      ⟨["dswe", "--xml", "scene.xml", "--wigt", "5", "--wigt", "0.5"], [], [], [], []⟩ stack0
      { stack0 with option_index := 4 } entry0
      { assign_defaults entry0 with xml_infile := some "scene.xml", wigt := narrow (atof "0.5") }
      (by decide) rfl).1, by decide, stored_0_5, ?_⟩
  rw [validate_success _ _ _ (by simp [grab_flags]) ?_ da dp
    (by show (0 : Int) ≤ default_pswnt; decide) (by show (0 : Int) ≤ default_pswst; decide) ds]
  show ((narrow (atof "0.5")).lt 0 || ((narrow (atof "0.5")).sub 2).gt sampleSigma) = false
  rw [stored_0_5]
  norm_num [CFloat.lt, CFloat.gt, CFloat.sub, sampleSigma]

/-! ## C12 -/

/-- C12 (counterexample): `--xml scene.xml --bogus` returns `ERROR`, and on return the input
path and `pswnt` hold the parsed path and the default, not the values they had on entry. -/
theorem C12_counterexample :
    (get_args sampleSigma (fresh ["dswe", "--xml", "scene.xml", "--bogus"]) stack0 entry0).map
        (fun r => (r.ret, r.out.xml_infile, r.out.pswnt)) =
      some (Status.ERROR, some "scene.xml", 1500) ∧
    entry0.xml_infile = none ∧ entry0.pswnt = 0 := by
  have hscan : get_args_loop 4 (fresh ["dswe", "--xml", "scene.xml", "--bogus"]) stack0
      (assign_defaults entry0) =
      some (.returned
        { ret := .ERROR, msg := some "Unknown option --bogus\n\n", usage := true,
          out := { assign_defaults entry0 with xml_infile := some "scene.xml" },
          getopt := ⟨["dswe", "--xml", "scene.xml"], [], ["--bogus"], [], []⟩ }) := by
    rfl
  rw [get_args_of_returned sampleSigma 4 _ _ _ _ (by decide) hscan]
  exact ⟨rfl, rfl, rfl⟩

theorem stored_fields (fuel : Nat) (g : GetoptData) (l : Locals) (o : Outputs) (e : LoopEnd)
    (h : get_args_loop fuel g l (assign_defaults o) = some e) :
    e.out.xml_infile = (lastOptarg (chr 'x') (options_stored fuel g l)).getD o.xml_infile ∧
    e.out.wigt = ((lastOptarg (chr 'w') (options_stored fuel g l)).map
      (fun a => narrow (atof (a.getD "")))).getD default_wigt ∧
    e.out.awgt = ((lastOptarg (chr 'a') (options_stored fuel g l)).map
      (fun a => narrow (atof (a.getD "")))).getD default_awgt ∧
    e.out.pswt = ((lastOptarg (chr 'p') (options_stored fuel g l)).map
      (fun a => narrow (atof (a.getD "")))).getD default_pswt ∧
    e.out.pswnt = ((lastOptarg (chr 'n') (options_stored fuel g l)).map
      (fun a => atoi (a.getD ""))).getD default_pswnt ∧
    e.out.pswst = ((lastOptarg (chr 'r') (options_stored fuel g l)).map
      (fun a => atoi (a.getD ""))).getD default_pswst ∧
    e.out.percent_slope = ((lastOptarg (chr 's') (options_stored fuel g l)).map
      (fun a => narrow (atof (a.getD "")))).getD default_percent_slope := by
  refine ⟨?_, ?_, ?_, ?_, ?_, ?_, ?_⟩
  · have h1 := stored_decides (fun q => q.xml_infile) (fun a => a) (chr 'x')
      (fun r q q1 hsw => (switch_c_inl_fields r q q1 hsw).1) fuel _ _ _ _ h
    simpa using h1
  · exact stored_decides (fun q => q.wigt) (fun a => narrow (atof (a.getD ""))) (chr 'w')
      (fun r q q1 hsw => (switch_c_inl_fields r q q1 hsw).2.1) fuel _ _ _ _ h
  · exact stored_decides (fun q => q.awgt) (fun a => narrow (atof (a.getD ""))) (chr 'a')
      (fun r q q1 hsw => (switch_c_inl_fields r q q1 hsw).2.2.1) fuel _ _ _ _ h
  · exact stored_decides (fun q => q.pswt) (fun a => narrow (atof (a.getD ""))) (chr 'p')
      (fun r q q1 hsw => (switch_c_inl_fields r q q1 hsw).2.2.2.1) fuel _ _ _ _ h
  · exact stored_decides (fun q => q.pswnt) (fun a => atoi (a.getD "")) (chr 'n')
      (fun r q q1 hsw => (switch_c_inl_fields r q q1 hsw).2.2.2.2.1) fuel _ _ _ _ h
  · exact stored_decides (fun q => q.pswst) (fun a => atoi (a.getD "")) (chr 'r')
      (fun r q q1 hsw => (switch_c_inl_fields r q q1 hsw).2.2.2.2.2.1) fuel _ _ _ _ h
  · exact stored_decides (fun q => q.percent_slope) (fun a => narrow (atof (a.getD "")))
      (chr 's') (fun r q q1 hsw => (switch_c_inl_fields r q q1 hsw).2.2.2.2.2.2) fuel _ _ _ _ h

/-- C12 (amended): nothing is rolled back on failure.  On return the output locations have
their entry values when `argc` is 1.  Otherwise the input path holds the value of the last
`xml` option among the options that were stored before the return (its entry value when there
is none) and each of the six numeric outputs the conversion of the value of the last stored
occurrence of its option (its default when there is none); the four boolean outputs have
their entry values when the return is made inside the option scan (help, unknown option,
missing value), which returns `ERROR`, and the staged flags when the scan ran to its end, also
if the validation then fails. -/
theorem C12_outputs_on_return (MINSIGMA : ℚ) (g : GetoptData) (l : Locals) (o : Outputs)
    (r : Result) (h : get_args MINSIGMA g l o = some r) :
    (g.argc = 1 ∧ r.ret = Status.ERROR ∧ r.out = o) ∨
    (g.argc ≠ 1 ∧
      r.out.xml_infile =
        (lastOptarg (chr 'x') (options_stored (g.rest.length + 1) g l)).getD o.xml_infile ∧
      r.out.wigt = ((lastOptarg (chr 'w') (options_stored (g.rest.length + 1) g l)).map
        (fun a => narrow (atof (a.getD "")))).getD default_wigt ∧
      r.out.awgt = ((lastOptarg (chr 'a') (options_stored (g.rest.length + 1) g l)).map
        (fun a => narrow (atof (a.getD "")))).getD default_awgt ∧
      r.out.pswt = ((lastOptarg (chr 'p') (options_stored (g.rest.length + 1) g l)).map
        (fun a => narrow (atof (a.getD "")))).getD default_pswt ∧
      r.out.pswnt = ((lastOptarg (chr 'n') (options_stored (g.rest.length + 1) g l)).map
        (fun a => atoi (a.getD ""))).getD default_pswnt ∧
      r.out.pswst = ((lastOptarg (chr 'r') (options_stored (g.rest.length + 1) g l)).map
        (fun a => atoi (a.getD ""))).getD default_pswst ∧
      r.out.percent_slope =
        ((lastOptarg (chr 's') (options_stored (g.rest.length + 1) g l)).map
          (fun a => narrow (atof (a.getD "")))).getD default_percent_slope ∧
      ((get_args_loop (g.rest.length + 1) g l (assign_defaults o) = some (.returned r) ∧
          r.ret = Status.ERROR ∧
          r.out.use_ledaps_mask_flag = o.use_ledaps_mask_flag ∧
          r.out.use_zeven_thorne_flag = o.use_zeven_thorne_flag ∧
          r.out.use_toa_flag = o.use_toa_flag ∧ r.out.verbose_flag = o.verbose_flag) ∨
        (∃ g1 l1 o1,
          get_args_loop (g.rest.length + 1) g l (assign_defaults o) =
            some (.finished g1 l1 o1) ∧
          r = validate MINSIGMA g1 (grab_flags l1 o1) ∧ r.out = grab_flags l1 o1))) := by
  unfold get_args at h
  split_ifs at h with hargc
  · cases h
    exact Or.inl ⟨hargc, rfl, rfl⟩
  · split at h
    · cases h
    · rename_i r2 hloop
      cases h
      have hflags := get_args_loop_returned_flags _ _ _ _ _ hloop
      obtain ⟨k1, k2, k3, k4, k5, k6, k7⟩ := stored_fields _ _ _ _ _ hloop
      exact Or.inr ⟨hargc, k1, k2, k3, k4, k5, k6, k7,
        Or.inl ⟨hloop, get_args_loop_returned_ret _ _ _ _ _ hloop, hflags⟩⟩
    · rename_i g1 l1 o1 hloop
      cases h
      obtain ⟨k1, k2, k3, k4, k5, k6, k7⟩ := stored_fields _ _ _ _ _ hloop
      rw [validate_out]
      exact Or.inr ⟨hargc, k1, k2, k3, k4, k5, k6, k7,
        Or.inr ⟨g1, l1, o1, hloop, rfl, rfl⟩⟩

/-- Witness of C12: `--xml scene.xml --bogus`, a failure raised inside the scan.  The option
stored before the return is `--xml scene.xml`; the path holds its value, `pswnt` its default
and the verbose output its entry value. -/
theorem C12_outputs_on_return_witness :
    get_args sampleSigma (fresh ["dswe", "--xml", "scene.xml", "--bogus"]) stack0 entry0 =
      some sampleUnknown ∧
    options_stored 4 (fresh ["dswe", "--xml", "scene.xml", "--bogus"]) stack0 =
      [(chr 'x', some "scene.xml")] ∧
    sampleUnknown.out.xml_infile =
      (lastOptarg (chr 'x')
        (options_stored 4 (fresh ["dswe", "--xml", "scene.xml", "--bogus"]) stack0)).getD
        entry0.xml_infile ∧
    sampleUnknown.out.pswnt =
      ((lastOptarg (chr 'n')
        (options_stored 4 (fresh ["dswe", "--xml", "scene.xml", "--bogus"]) stack0)).map
        (fun a => atoi (a.getD ""))).getD default_pswnt ∧
    sampleUnknown.ret = Status.ERROR ∧
    sampleUnknown.out.verbose_flag = entry0.verbose_flag := by
  have hscan : get_args_loop 4 (fresh ["dswe", "--xml", "scene.xml", "--bogus"]) stack0
      (assign_defaults entry0) = some (.returned sampleUnknown) := by
    rfl
  have hget := get_args_of_returned sampleSigma 4 _ _ _ _ (by decide) hscan
  have hne : (fresh ["dswe", "--xml", "scene.xml", "--bogus"]).argc ≠ 1 := by decide
  rcases C12_outputs_on_return sampleSigma _ _ _ _ hget with
    ⟨h1, _⟩ | ⟨_, kx, _, _, _, kn, _, _, ⟨_, hret, _, _, _, hv⟩ | ⟨g1, l1, o1, hfin, _⟩⟩
  · exact absurd h1 hne
  · exact ⟨hget, by decide, kx, kn, hret, hv⟩
  · rw [show (fresh ["dswe", "--xml", "scene.xml", "--bogus"]).rest.length + 1 = 4 from rfl,
      hscan] at hfin
    cases hfin

/-! ## What a finished scan leaves -/

end Dswe
